import Mathlib

/-!
LR1: table interpolation and the formula cascade.

A shallow embedding of `LR1.cpp`.

Numbers. A C++ `double` that the program computes is embedded as an `Option α`
over a linearly ordered field `α` (`ℚ` for evaluation, `ℝ` for the theorems that
mention the logarithm): `some r` is the finite value `r`, computed exactly (no
rounding, no overflow), and `none` is a value that is not a real number: the
NaN or the infinity that the machine division by a zero divisor and the machine
logarithm of a non-positive argument give, and the undefined result of `back()`
on an empty vector.  Sums, differences and products of such values are again
not real numbers, so the arithmetic of the cascade is the `Option` bind.  The
only comparison the program makes on a computed value is `!= 0`, which is true
of a NaN: it is embedded as `≠ some 0`.  The inputs `x`, `y`, `z` and the table
entries are finite numbers, of type `α`.

The logarithm is a parameter `ln : α → α` of the cascade (`Real.log` over `ℝ`).
-/

namespace LR1

/-- One row of the table: `struct DataPoint { double x, T, U; }`. -/
structure DataPoint (α : Type) where
  x : α
  T : α
  U : α
deriving DecidableEq, Repr

section Core

variable {α : Type} [LinearOrderedField α]

/-- The machine division `a / b` of finite numbers: with a zero divisor the result
is a NaN or an infinity, not a real number. -/
def fdiv (a b : α) : Option α :=
  if b = 0 then none else some (a / b)

/-- The machine logarithm `log(v)` of a finite number: real only for `v > 0`. -/
def flog (ln : α → α) (v : α) : Option α :=
  if 0 < v then some (ln v) else none

/-- The field selector of `interpolate`: `isT ? p.T : p.U`. -/
def sel (isT : Bool) (p : DataPoint α) : α :=
  if isT then p.T else p.U

/-- The loop of `interpolate` from index `i` on, where `prev` is `data[i - 1]` and
the list holds `data[i]`, `data[i + 1]`, ...: the first adjacent pair with
`x >= data[i - 1].x && x <= data[i].x` gives the interpolated value; when the
list is exhausted `prev` is `data.back()`. -/
def interpolateFrom (x : α) (isT : Bool) : DataPoint α → List (DataPoint α) → Option α
  | prev, [] => some (sel isT prev)
  | prev, cur :: rest =>
    if x ≥ prev.x ∧ x ≤ cur.x then
      let x0 := prev.x
      let x1 := cur.x
      let y0 := sel isT prev
      let y1 := sel isT cur
      (fdiv ((y1 - y0) * (x - x0)) (x1 - x0)).bind fun q => some (y0 + q)
    else interpolateFrom x isT cur rest

/-- The function `interpolate(x, data, isT)`.  On an empty vector the loop does not
run and `data.back()` is undefined. -/
def interpolate (x : α) (data : List (DataPoint α)) (isT : Bool) : Option α :=
  match data with
  | [] => none
  | d :: rest => interpolateFrom x isT d rest

/-- `T(x, data)`. -/
def T (x : α) (data : List (DataPoint α)) : Option α :=
  interpolate x data true

/-- `U(x, data)`. -/
def U (x : α) (data : List (DataPoint α)) : Option α :=
  interpolate x data false

/-- `Srz(x, y, z, data)`. -/
def Srz (x y z : α) (data : List (DataPoint α)) : Option α :=
  if x > y then do
    let a ← T x data
    let b ← U z data
    let c ← T y data
    pure (a + b - c)
  else do
    let a ← T y data
    let b ← U y data
    let c ← U z data
    pure (a + b - c)

/-- `Srs1(x, y, data)`. -/
def Srs1 (ln : α → α) (x y : α) (data : List (DataPoint α)) : Option α :=
  let val := x * x + 2 * y
  if val > 1 then do
    let s ← Srz x y x data
    let l ← flog ln val
    pure (s + y * l)
  else do
    let s ← Srz y x y data
    pure (y + s)

/-- `Qrz(x, y, data)`. -/
def Qrz (ln : α → α) (x y : α) (data : List (DataPoint α)) : Option α :=
  if |x| < 1 then do
    let s ← Srs1 ln x y data
    pure (x * s)
  else do
    let s ← Srs1 ln x y data
    pure (y * s)

/-- `Rrz(x, y, z, data)`. -/
def Rrz (ln : α → α) (x y z : α) (data : List (DataPoint α)) : Option α :=
  if x > y then do
    let q ← Qrz ln y z data
    pure (x * y * q)
  else do
    let q ← Qrz ln x y data
    pure (x * z * q)

/-- `Krn(x, y, z, data)`. -/
def Krn (ln : α → α) (x y z : α) (data : List (DataPoint α)) : Option α := do
  let r1 ← Rrz ln x y z data
  let r2 ← Rrz ln (x - y) z y data
  pure (73.1389 * r1 + 14.838 * r2)

/-- `fun1(x, y, z, data)`. -/
def fun1 (ln : α → α) (x y z : α) (data : List (DataPoint α)) : Option α := do
  let k1 ← Krn ln x y z data
  let k2 ← Krn ln x z y data
  let k3 ← Krn ln x z y data
  pure (x * k1 + y * k2 - z * k3)

/-- `Srs2(x, y, z, data)`. -/
def Srs2 (x y z : α) (data : List (DataPoint α)) : Option α :=
  if z ≥ y then do
    let s ← Srz x y z data
    pure (s + 1.44 * y * z)
  else do
    let s ← Srz z x y data
    pure (1.44 * y * s)

/-- `Qrz1(x, y, data)`. -/
def Qrz1 (ln : α → α) (x y : α) (data : List (DataPoint α)) : Option α :=
  if |x| < 1 then do
    let s ← Srs1 ln x y data
    pure (x * s)
  else do
    let s ← Srs1 ln x y data
    pure (y * s)

/-- `Rrz2(x, y, z, data)`. -/
def Rrz2 (ln : α → α) (x y z : α) (data : List (DataPoint α)) : Option α :=
  if x > y then do
    let q ← Qrz1 ln y z data
    pure (x * y * q)
  else do
    let q ← Qrz1 ln x y data
    pure (x * z * q)

/-- `Srs3(x, y, z, data)`. -/
def Srs3 (x y z : α) (data : List (DataPoint α)) : Option α :=
  if z > y then do
    let s ← Srz x y z data
    pure (s + y * z)
  else do
    let s ← Srz z x y data
    pure (y + s)

/-- `Qrz2(x, y, data)`. -/
def Qrz2 (x y : α) (data : List (DataPoint α)) : Option α :=
  if |x| < 1 then do
    let s ← Srs2 x y y data
    pure (x * s)
  else do
    let s ← Srs2 x y y data
    pure (y * s)

/-- `Rrz3(x, y, z, data)`. -/
def Rrz3 (x y z : α) (data : List (DataPoint α)) : Option α :=
  if x > y then do
    let q ← Qrz2 y z data
    pure (x * y * q)
  else do
    let q ← Qrz2 x y data
    pure (x * z * q)

/-- `Krn2(x, y, z, data)`. -/
def Krn2 (x y z : α) (data : List (DataPoint α)) : Option α := do
  let r1 ← Rrz3 x y z data
  let r2 ← Rrz3 x z y data
  pure (83.1389 * r1 + 4.838 * r2)

/-- `fun5(x, y, z)`. -/
def fun5 (x y z : α) : α :=
  4.349 * x * x + 23.23 * y - 2.348 * x * y * z

/-- `fun(x, y, z, data)` (`fun` is a keyword of Lean).  The tests `!= 0` are true of
a value that is not a number. -/
def fun_ (ln : α → α) (x y z : α) (data : List (DataPoint α)) : Option α :=
  if x * x + 2 * y > 1 then fun1 ln x y z data
  else if Rrz2 ln x y z data ≠ some 0 then Krn ln x y z data
  else if Rrz3 x y z data ≠ some 0 then Krn2 x y z data
  else some (fun5 x y z)
/-- The exception classes of the program, `FileOpenException` and
`InvalidInputException`, each with the text of `what()`. -/
inductive Failure where
  | fileOpen (what : String)
  | invalidInput (what : String)
deriving DecidableEq, Repr

/-- `readData(filename)`.  The argument `file` is the content of the named file as
the triples that `file >> x >> T >> U` reads, and `none` when the file does not
open. -/
def readData (file : Option (List (DataPoint α))) (filename : String) :
    Except Failure (List (DataPoint α)) :=
  match file with
  | none => Except.error (Failure.fileOpen ("Failed to open file: " ++ filename))
  | some data =>
    if data.isEmpty then
      Except.error (Failure.fileOpen ("Failed to open file: " ++ ("File is empty: " ++ filename)))
    else Except.ok data

/-- The choice of the table file in `main`. -/
def selectFile (x : α) : String :=
  if x > 1 then ("dat_X_1_1.dat")
  else if x = 1 ∨ x = -1 then ("dat_X_1_00.dat")
  else ("dat_X_00_1.dat")

/-- The `try` block of `main`.  The argument `input` is what `cin >> x >> y >> z`
reads (`none` when it fails) and `files` gives the content of each file.  The
result `Except.ok v` is the run that prints `v` and returns 0; an error is the
run that reports the exception and returns 1. -/
def main (ln : α → α) (input : Option (α × α × α))
    (files : String → Option (List (DataPoint α))) : Except Failure (Option α) :=
  match input with
  | none => Except.error (Failure.invalidInput ("Invalid input: x, y, z must be numeric values."))
  | some (x, y, z) =>
    match readData (files (selectFile x)) (selectFile x) with
    | Except.error e => Except.error e
    | Except.ok data => Except.ok (fun_ ln x y z data)


/-- No adjacent pair of the table satisfies the loop condition of `interpolate` at `q`. -/
def NoBracket (q : α) (data : List (DataPoint α)) : Prop :=
  ∀ (j : Nat) (p c : DataPoint α),
    data[j]? = some p → data[j + 1]? = some c → ¬ (q ≥ p.x ∧ q ≤ c.x)

/-- The index `i ≥ 1` is the lowest one whose adjacent pair `(data[i - 1], data[i])`,
here `(p, c)`, satisfies the loop condition of `interpolate` at `q`. -/
def FirstBracket (q : α) (data : List (DataPoint α)) (i : Nat) (p c : DataPoint α) : Prop :=
  1 ≤ i ∧ data[i - 1]? = some p ∧ data[i]? = some c ∧ (q ≥ p.x ∧ q ≤ c.x) ∧
    ∀ (j : Nat) (p' c' : DataPoint α), 1 ≤ j → j < i →
      data[j - 1]? = some p' → data[j]? = some c' → ¬ (q ≥ p'.x ∧ q ≤ c'.x)

/-- The table is sorted ascending by coordinate (ties allowed). -/
def SortedAsc (data : List (DataPoint α)) : Prop :=
  data.Pairwise fun p c => p.x ≤ c.x

/-- The coordinates of the table are strictly increasing. -/
def StrictAsc (data : List (DataPoint α)) : Prop :=
  data.Pairwise fun p c => p.x < c.x

/-- The table of the linearity example: samples `(0, 0, 0)` and `(10, 100, 50)`. -/
def tableLinear (α : Type) [LinearOrderedField α] : List (DataPoint α) :=
  [⟨0, 0, 0⟩, ⟨10, 100, 50⟩]

/-- A table sorted ascending in which two samples share the coordinate 5. -/
def tableTie (α : Type) [LinearOrderedField α] : List (DataPoint α) :=
  [⟨0, 0, 0⟩, ⟨5, 1, 2⟩, ⟨5, 3, 4⟩]

/-- The degenerate table: two adjacent samples share the coordinate 5. -/
def tableDegenerate (α : Type) [LinearOrderedField α] : List (DataPoint α) :=
  [⟨5, 1, 2⟩, ⟨5, 3, 4⟩]

/-- A table, sorted ascending, whose two samples share the coordinate 0. -/
def tableZeroTie (α : Type) [LinearOrderedField α] : List (DataPoint α) :=
  [⟨0, 1, 2⟩, ⟨0, 3, 4⟩]

/-- The table of the end-to-end scenario: `[(0,0,0), (1,10,5), (2,20,10)]`. -/
def tableEndToEnd (α : Type) [LinearOrderedField α] : List (DataPoint α) :=
  [⟨0, 0, 0⟩, ⟨1, 10, 5⟩, ⟨2, 20, 10⟩]

/-- No two adjacent samples of the table share a coordinate. -/
def NoZeroSpan (data : List (DataPoint α)) : Prop :=
  ∀ (j : Nat) (p c : DataPoint α), data[j]? = some p → data[j + 1]? = some c → p.x ≠ c.x

/-- The table of the `Krn2` example: the single sample `(0, 0, -0.2)`. -/
def tableKernel2 (α : Type) [LinearOrderedField α] : List (DataPoint α) :=
  [⟨0, 0, -0.2⟩]

/-! Double arithmetic.  The definitions above compute in exact arithmetic.  The
definitions of `Rounded` repeat `interpolate`, `T`, `U` and `Srz` with the result of
every arithmetic operation passed through a rounding function `rnd`; with `rnd` the
identity they are the definitions above, and with `rnd := round64` they are the
binary64 evaluation of the source (round to nearest, ties to even; the exponent
range, and so overflow and underflow, is not modelled). -/

/-- The integer nearest to `q`, the even one at a tie. -/
def roundHalfEven (q : ℚ) : ℤ :=
  let f := ⌊q⌋
  if q - f < 1 / 2 then f
  else if 1 / 2 < q - f then f + 1
  else if f % 2 = 0 then f else f + 1

/-- The number with 53 significant bits nearest to `q`, ties to the even significand:
the binary64 value of `q`, for `q` in the range of normal doubles. -/
def round64 (q : ℚ) : ℚ :=
  if q = 0 then 0
  else
    let e : ℤ := Int.log 2 |q| - 52
    roundHalfEven (q / 2 ^ e) * 2 ^ e

namespace Rounded

/-- The loop of `interpolate`, every operation of
`y0 + (y1 - y0) * (x - x0) / (x1 - x0)` rounded. -/
def interpolateFrom (rnd : α → α) (x : α) (isT : Bool) :
    DataPoint α → List (DataPoint α) → Option α
  | prev, [] => some (sel isT prev)
  | prev, cur :: rest =>
    if x ≥ prev.x ∧ x ≤ cur.x then
      let x0 := prev.x
      let x1 := cur.x
      let y0 := sel isT prev
      let y1 := sel isT cur
      (fdiv (rnd (rnd (y1 - y0) * rnd (x - x0))) (rnd (x1 - x0))).bind
        fun q => some (rnd (y0 + rnd q))
    else interpolateFrom rnd x isT cur rest

/-- The function `interpolate(x, data, isT)` with rounded operations. -/
def interpolate (rnd : α → α) (x : α) (data : List (DataPoint α)) (isT : Bool) : Option α :=
  match data with
  | [] => none
  | d :: rest => interpolateFrom rnd x isT d rest

/-- `T(x, data)` with rounded operations. -/
def T (rnd : α → α) (x : α) (data : List (DataPoint α)) : Option α :=
  interpolate rnd x data true

/-- `U(x, data)` with rounded operations. -/
def U (rnd : α → α) (x : α) (data : List (DataPoint α)) : Option α :=
  interpolate rnd x data false

/-- `Srz(x, y, z, data)` with rounded operations: `a + b - c` is `(a + b) - c`. -/
def Srz (rnd : α → α) (x y z : α) (data : List (DataPoint α)) : Option α :=
  if x > y then do
    let a ← T rnd x data
    let b ← U rnd z data
    let c ← T rnd y data
    pure (rnd (rnd (a + b) - c))
  else do
    let a ← T rnd y data
    let b ← U rnd y data
    let c ← U rnd z data
    pure (rnd (rnd (a + b) - c))

end Rounded

/-- The table `[(0, 0.1, 0.2)]`, its entries the doubles nearest to 0.1 and 0.2. -/
def tableTenths : List (DataPoint ℚ) :=
  [⟨0, round64 (1 / 10), round64 (1 / 5)⟩]

/-- The table `[(0, 0.2, 0), (0.1, 1, 0.1)]`, its entries the nearest doubles. -/
def tableFifth : List (DataPoint ℚ) :=
  [⟨0, round64 (1 / 5), 0⟩, ⟨round64 (1 / 10), 1, round64 (1 / 10)⟩]

/-! ## Lemmas on the scan -/

theorem interpolateFrom_cons (q : α) (isT : Bool) (prev cur : DataPoint α)
    (rest : List (DataPoint α)) :
    interpolateFrom q isT prev (cur :: rest) =
      if q ≥ prev.x ∧ q ≤ cur.x then
        (fdiv ((sel isT cur - sel isT prev) * (q - prev.x)) (cur.x - prev.x)).bind
          fun d => some (sel isT prev + d)
      else interpolateFrom q isT cur rest := rfl

theorem interpolateFrom_first (q : α) (isT : Bool) (p c : DataPoint α) :
    ∀ (k : Nat) (prev : DataPoint α) (rest : List (DataPoint α)),
      (prev :: rest)[k]? = some p → (prev :: rest)[k + 1]? = some c →
      q ≥ p.x → q ≤ c.x →
      (∀ (j : Nat) (p' c' : DataPoint α), j < k → (prev :: rest)[j]? = some p' →
        (prev :: rest)[j + 1]? = some c' → ¬ (q ≥ p'.x ∧ q ≤ c'.x)) →
      interpolateFrom q isT prev rest =
        (fdiv ((sel isT c - sel isT p) * (q - p.x)) (c.x - p.x)).bind
          fun d => some (sel isT p + d) := by
  intro k
  induction k with
  | zero =>
    intro prev rest hp hc h1 h2 _
    cases rest with
    | nil => simp at hc
    | cons cur rest =>
      simp at hp hc
      subst hp; subst hc
      rw [interpolateFrom_cons, if_pos ⟨h1, h2⟩]
  | succ k ih =>
    intro prev rest hp hc h1 h2 hlow
    cases rest with
    | nil => simp at hp
    | cons cur rest =>
      have h0 : ¬ (q ≥ prev.x ∧ q ≤ cur.x) :=
        hlow 0 prev cur (Nat.succ_pos k) (by simp) (by simp)
      rw [interpolateFrom_cons, if_neg h0]
      apply ih cur rest
      · simpa using hp
      · simpa using hc
      · exact h1
      · exact h2
      · intro j p' c' hj hp' hc'
        exact hlow (j + 1) p' c' (Nat.succ_lt_succ hj) (by simpa using hp') (by simpa using hc')

theorem interpolate_first (q : α) (isT : Bool) (data : List (DataPoint α)) (i : Nat)
    (p c : DataPoint α) (h : FirstBracket q data i p c) :
    interpolate q data isT =
      (fdiv ((sel isT c - sel isT p) * (q - p.x)) (c.x - p.x)).bind
        fun d => some (sel isT p + d) := by
  obtain ⟨hi, hp, hc, ⟨h1, h2⟩, hlow⟩ := h
  obtain ⟨k, rfl⟩ : ∃ k, i = k + 1 := ⟨i - 1, by omega⟩
  cases data with
  | nil => simp at hp
  | cons d rest =>
    show interpolateFrom q isT d rest = _
    apply interpolateFrom_first q isT p c k d rest (by simpa using hp) hc h1 h2
    intro j p' c' hj hp' hc'
    exact hlow (j + 1) p' c' (by omega) (by omega) (by simpa using hp') hc'

theorem interpolateFrom_noBracket (q : α) (isT : Bool) (l : DataPoint α) :
    ∀ (rest : List (DataPoint α)) (prev : DataPoint α),
      NoBracket q (prev :: rest) → (prev :: rest).getLast? = some l →
      interpolateFrom q isT prev rest = some (sel isT l) := by
  intro rest
  induction rest with
  | nil =>
    intro prev _ hl
    simp at hl
    subst hl
    rfl
  | cons cur rest ih =>
    intro prev hno hl
    have h0 : ¬ (q ≥ prev.x ∧ q ≤ cur.x) := hno 0 prev cur (by simp) (by simp)
    rw [interpolateFrom_cons, if_neg h0]
    apply ih cur
    · intro j p c hp hc
      exact hno (j + 1) p c (by simpa using hp) (by simpa using hc)
    · simpa using hl

theorem interpolate_noBracket (q : α) (isT : Bool) (data : List (DataPoint α))
    (l : DataPoint α) (hno : NoBracket q data) (hl : data.getLast? = some l) :
    interpolate q data isT = some (sel isT l) := by
  cases data with
  | nil => simp at hl
  | cons d rest => exact interpolateFrom_noBracket q isT l rest d hno hl

theorem noBracket_of_all_lt (q : α) (data : List (DataPoint α))
    (h : ∀ p ∈ data, p.x < q) : NoBracket q data := by
  intro j p c _ hc hb
  exact absurd hb.2 (not_le.mpr (h c (List.getElem?_mem hc)))

theorem noBracket_of_all_gt (q : α) (data : List (DataPoint α))
    (h : ∀ p ∈ data, q < p.x) : NoBracket q data := by
  intro j p c hp _ hb
  exact absurd hb.1 (not_le.mpr (h p (List.getElem?_mem hp)))

theorem noBracket_of_length_le_one (q : α) (data : List (DataPoint α))
    (h : data.length ≤ 1) : NoBracket q data := by
  intro j p c _ hc
  have : j + 1 < data.length := by
    by_contra hlt
    rw [List.getElem?_eq_none (by omega)] at hc
    exact Option.noConfusion hc
  omega

theorem SortedAsc.le_last {data : List (DataPoint α)} (hs : SortedAsc data)
    {l : DataPoint α} (hl : data.getLast? = some l) : ∀ p ∈ data, p.x ≤ l.x := by
  obtain ⟨ys, rfl⟩ := List.getLast?_eq_some_iff.mp hl
  intro p hp
  rcases List.mem_append.mp hp with h | h
  · exact (List.pairwise_append.mp hs).2.2 p h l (by simp)
  · simp at h
    rw [h]

theorem SortedAsc.first_le {data : List (DataPoint α)} (hs : SortedAsc data)
    {f : DataPoint α} (hf : data.head? = some f) : ∀ p ∈ data, f.x ≤ p.x := by
  cases data with
  | nil => simp at hf
  | cons d rest =>
    simp at hf
    subst hf
    intro p hp
    rcases List.mem_cons.mp hp with h | h
    · rw [h]
    · exact (List.pairwise_cons.mp hs).1 p h

theorem StrictAsc.sortedAsc {data : List (DataPoint α)} (hs : StrictAsc data) :
    SortedAsc data :=
  List.Pairwise.imp (fun h => le_of_lt h) hs

theorem interpolateFrom_at_sample (isT : Bool) (s : DataPoint α) :
    ∀ (rest : List (DataPoint α)) (prev : DataPoint α),
      StrictAsc (prev :: rest) → s ∈ prev :: rest →
      interpolateFrom s.x isT prev rest = some (sel isT s) := by
  intro rest
  induction rest with
  | nil =>
    intro prev _ hm
    simp at hm
    subst hm
    rfl
  | cons cur rest ih =>
    intro prev hs hm
    have hs' : StrictAsc (cur :: rest) := (List.pairwise_cons.mp hs).2
    have hpc : prev.x < cur.x := (List.pairwise_cons.mp hs).1 cur (by simp)
    have hd : cur.x - prev.x ≠ 0 := sub_ne_zero.mpr (ne_of_gt hpc)
    rw [interpolateFrom_cons]
    rcases List.mem_cons.mp hm with h | h
    · subst h
      rw [if_pos ⟨le_refl _, le_of_lt hpc⟩]
      simp [fdiv, hd]
    · have hcs : cur.x ≤ s.x := by
        rcases List.mem_cons.mp h with h1 | h1
        · rw [h1]
        · exact le_of_lt ((List.pairwise_cons.mp hs').1 s h1)
      by_cases hle : s.x ≤ cur.x
      · have hsc : s = cur := by
          rcases List.mem_cons.mp h with h1 | h1
          · exact h1
          · exact absurd hle (not_le.mpr ((List.pairwise_cons.mp hs').1 s h1))
        subst hsc
        rw [if_pos ⟨le_of_lt hpc, le_refl _⟩]
        simp only [fdiv, if_neg hd, Option.some_bind, Option.some.injEq]
        field_simp
      · rw [if_neg (fun hb => hle hb.2)]
        exact ih cur hs' h

/-! ## Interpolation: the claims -/

/-- C1: when `i` is the lowest index whose adjacent pair `(p, c) = (data[i-1], data[i])`
satisfies `p.x ≤ q ≤ c.x`, and the two coordinates differ, `T q` is
`p.T + (c.T - p.T) * (q - p.x) / (c.x - p.x)` and `U q` is the same expression over
the field `U`. -/
theorem interpolate_first_bracket_formula (q : α) (data : List (DataPoint α)) (i : Nat)
    (p c : DataPoint α) (h : FirstBracket q data i p c) (hne : p.x ≠ c.x) :
    T q data = some (p.T + (c.T - p.T) * (q - p.x) / (c.x - p.x)) ∧
      U q data = some (p.U + (c.U - p.U) * (q - p.x) / (c.x - p.x)) := by
  have hd : c.x - p.x ≠ 0 := sub_ne_zero.mpr (Ne.symm hne)
  constructor
  · rw [T, interpolate_first q true data i p c h]
    simp [fdiv, hd, sel]
  · rw [U, interpolate_first q false data i p c h]
    simp [fdiv, hd, sel]

/-- C1, the linearity example: on the table `[(0,0,0), (10,100,50)]`, `T 5 = 50` and
`U 5 = 25`. -/
theorem interpolate_first_bracket_formula_witness :
    T (5 : ℚ) (tableLinear ℚ) = some 50 ∧ U (5 : ℚ) (tableLinear ℚ) = some 25 := by
  have hb : FirstBracket (5 : ℚ) (tableLinear ℚ) 1 ⟨0, 0, 0⟩ ⟨10, 100, 50⟩ := by
    refine ⟨le_refl 1, by simp [tableLinear], by simp [tableLinear], by norm_num, ?_⟩
    intro j p' c' h1 h2
    omega
  obtain ⟨hT, hU⟩ :=
    interpolate_first_bracket_formula (5 : ℚ) (tableLinear ℚ) 1 ⟨0, 0, 0⟩ ⟨10, 100, 50⟩ hb
      (by norm_num)
  rw [hT, hU]
  norm_num

/-- C2, as stated, fails: the table `[(0,0,0), (5,1,2), (5,3,4)]` is sorted ascending
and the query at the coordinate of its sample `(5,3,4)` gives `T = 1`, `U = 2`, the
values of the sample `(5,1,2)`. -/
theorem interpolate_at_sample_tie_counterexample :
    SortedAsc (tableTie ℚ) ∧ (⟨5, 3, 4⟩ : DataPoint ℚ) ∈ tableTie ℚ ∧
      T (5 : ℚ) (tableTie ℚ) = some 1 ∧ U (5 : ℚ) (tableTie ℚ) = some 2 ∧
      ¬ (T (5 : ℚ) (tableTie ℚ) = some 3 ∧ U (5 : ℚ) (tableTie ℚ) = some 4) := by
  have hT : T (5 : ℚ) (tableTie ℚ) = some 1 := by
    norm_num [T, interpolate, interpolateFrom, tableTie, fdiv, sel]
  have hU : U (5 : ℚ) (tableTie ℚ) = some 2 := by
    norm_num [U, interpolate, interpolateFrom, tableTie, fdiv, sel]
  refine ⟨by simp [SortedAsc, tableTie], by simp [tableTie], hT, hU, ?_⟩
  rw [hT]
  norm_num

/-- C2, amended: on a table whose coordinates are strictly increasing, the query at
the coordinate of a sample `s` of the table returns the values of `s`. -/
theorem interpolate_at_sample (data : List (DataPoint α)) (s : DataPoint α)
    (hs : StrictAsc data) (hm : s ∈ data) :
    T s.x data = some s.T ∧ U s.x data = some s.U := by
  cases data with
  | nil => simp at hm
  | cons d rest =>
    exact ⟨interpolateFrom_at_sample true s rest d hs hm,
      interpolateFrom_at_sample false s rest d hs hm⟩

/-- C2, amended, on the table `[(0,0,0), (10,100,50)]` at its second sample. -/
theorem interpolate_at_sample_witness :
    T (10 : ℚ) (tableLinear ℚ) = some 100 ∧ U (10 : ℚ) (tableLinear ℚ) = some 50 :=
  interpolate_at_sample (tableLinear ℚ) ⟨10, 100, 50⟩
    (by simp [StrictAsc, tableLinear]) (by simp [tableLinear])

/-- C3: on a table with last sample `l`, when no adjacent pair satisfies the loop
condition at `q`, `T q = l.T` and `U q = l.U`; in particular when `q` is greater
than every coordinate of the table, and when the table has exactly one sample. -/
theorem interpolate_fallthrough_last (q : α) (data : List (DataPoint α)) (l : DataPoint α)
    (hl : data.getLast? = some l) :
    (NoBracket q data → T q data = some l.T ∧ U q data = some l.U) ∧
      ((∀ p ∈ data, p.x < q) → T q data = some l.T ∧ U q data = some l.U) ∧
      (data.length = 1 → T q data = some l.T ∧ U q data = some l.U) := by
  have key : NoBracket q data → T q data = some l.T ∧ U q data = some l.U := fun hno =>
    ⟨interpolate_noBracket q true data l hno hl, interpolate_noBracket q false data l hno hl⟩
  exact ⟨key, fun h => key (noBracket_of_all_lt q data h),
    fun h => key (noBracket_of_length_le_one q data (le_of_eq h))⟩

/-- C3, the clamp-high example: the last sample of the table is `(10, 100, 50)` and
`T 50 = 100`. -/
theorem interpolate_fallthrough_last_witness :
    (tableLinear ℚ).getLast? = some ⟨10, 100, 50⟩ ∧ T (50 : ℚ) (tableLinear ℚ) = some 100 :=
  ⟨rfl, ((interpolate_fallthrough_last (50 : ℚ) (tableLinear ℚ) ⟨10, 100, 50⟩ rfl).2.1
    (by simp [tableLinear]; norm_num)).1⟩

/-- C4, as stated, fails: on the sorted table `[(0,0,0), (10,100,50)]` the query `-5`
lies below the first coordinate `0`, and `T (-5) = 100`, `U (-5) = 50` are the
values of the last sample, not the values `0`, `0` of the first one. -/
theorem interpolate_below_range_counterexample :
    SortedAsc (tableLinear ℚ) ∧ (tableLinear ℚ).head? = some ⟨0, 0, 0⟩ ∧ (-5 : ℚ) < 0 ∧
      T (-5 : ℚ) (tableLinear ℚ) = some 100 ∧ U (-5 : ℚ) (tableLinear ℚ) = some 50 ∧
      ¬ (T (-5 : ℚ) (tableLinear ℚ) = some 0 ∧ U (-5 : ℚ) (tableLinear ℚ) = some 0) := by
  have hT : T (-5 : ℚ) (tableLinear ℚ) = some 100 := by
    norm_num [T, interpolate, interpolateFrom, tableLinear, fdiv, sel]
  have hU : U (-5 : ℚ) (tableLinear ℚ) = some 50 := by
    norm_num [U, interpolate, interpolateFrom, tableLinear, fdiv, sel]
  refine ⟨by simp [SortedAsc, tableLinear], rfl, by norm_num, hT, hU, ?_⟩
  rw [hT]
  norm_num

/-- C4, amended: on a non-empty table sorted ascending, with first sample `f` and last
sample `l`, a query outside the coordinate range, above `l.x` or below `f.x`,
returns the values of the last sample `l`. -/
theorem interpolate_outside_range_last (q : α) (data : List (DataPoint α))
    (f l : DataPoint α) (hs : SortedAsc data) (hf : data.head? = some f)
    (hl : data.getLast? = some l) (hout : q < f.x ∨ l.x < q) :
    T q data = some l.T ∧ U q data = some l.U := by
  have hno : NoBracket q data := by
    rcases hout with h | h
    · exact noBracket_of_all_gt q data fun p hp => lt_of_lt_of_le h (hs.first_le hf p hp)
    · exact noBracket_of_all_lt q data fun p hp => lt_of_le_of_lt (hs.le_last hl p hp) h
  exact ⟨interpolate_noBracket q true data l hno hl, interpolate_noBracket q false data l hno hl⟩

/-- C4, amended, on the table `[(0,0,0), (10,100,50)]` at the query `50`. -/
theorem interpolate_outside_range_last_witness :
    T (50 : ℚ) (tableLinear ℚ) = some 100 ∧ U (50 : ℚ) (tableLinear ℚ) = some 50 :=
  interpolate_outside_range_last (50 : ℚ) (tableLinear ℚ) ⟨0, 0, 0⟩ ⟨10, 100, 50⟩
    (by simp [SortedAsc, tableLinear]) rfl rfl (Or.inr (by norm_num))

/-- C5: on a non-empty table sorted ascending, with first sample `f` and last sample
`l`, a query strictly below `f.x` has no bracketing pair, and `T` and `U` return the
values of the last sample `l`. -/
theorem interpolate_below_first_last (q : α) (data : List (DataPoint α))
    (f l : DataPoint α) (hs : SortedAsc data) (hf : data.head? = some f)
    (hl : data.getLast? = some l) (hq : q < f.x) :
    NoBracket q data ∧ T q data = some l.T ∧ U q data = some l.U := by
  have hno : NoBracket q data :=
    noBracket_of_all_gt q data fun p hp => lt_of_lt_of_le hq (hs.first_le hf p hp)
  exact ⟨hno, interpolate_noBracket q true data l hno hl,
    interpolate_noBracket q false data l hno hl⟩

/-- C5 on the table `[(0,0,0), (10,100,50)]` at the query `-5`. -/
theorem interpolate_below_first_last_witness :
    NoBracket (-5 : ℚ) (tableLinear ℚ) ∧ T (-5 : ℚ) (tableLinear ℚ) = some 100 ∧
      U (-5 : ℚ) (tableLinear ℚ) = some 50 :=
  interpolate_below_first_last (-5 : ℚ) (tableLinear ℚ) ⟨0, 0, 0⟩ ⟨10, 100, 50⟩
    (by simp [SortedAsc, tableLinear]) rfl rfl (by norm_num)

/-! ## The zero span -/

theorem interpolateFrom_total (q : α) (isT : Bool) :
    ∀ (rest : List (DataPoint α)) (prev : DataPoint α), NoZeroSpan (prev :: rest) →
      ∃ v, interpolateFrom q isT prev rest = some v := by
  intro rest
  induction rest with
  | nil => exact fun prev _ => ⟨sel isT prev, rfl⟩
  | cons cur rest ih =>
    intro prev hz
    have hd : cur.x - prev.x ≠ 0 :=
      sub_ne_zero.mpr (Ne.symm (hz 0 prev cur (by simp) (by simp)))
    rw [interpolateFrom_cons]
    by_cases hb : q ≥ prev.x ∧ q ≤ cur.x
    · rw [if_pos hb]
      simp [fdiv, hd]
    · rw [if_neg hb]
      apply ih cur
      intro j p c hp hc
      exact hz (j + 1) p c (by simpa using hp) (by simpa using hc)

theorem T_total (q : α) (data : List (DataPoint α)) (hne : data ≠ [])
    (hz : NoZeroSpan data) : ∃ v, T q data = some v := by
  cases data with
  | nil => exact absurd rfl hne
  | cons d rest => exact interpolateFrom_total q true rest d hz

theorem U_total (q : α) (data : List (DataPoint α)) (hne : data ≠ [])
    (hz : NoZeroSpan data) : ∃ v, U q data = some v := by
  cases data with
  | nil => exact absurd rfl hne
  | cons d rest => exact interpolateFrom_total q false rest d hz

theorem Srz_total (x y z : α) (data : List (DataPoint α)) (hne : data ≠ [])
    (hz : NoZeroSpan data) : ∃ v, Srz x y z data = some v := by
  obtain ⟨a, ha⟩ := T_total x data hne hz
  obtain ⟨b, hb⟩ := T_total y data hne hz
  obtain ⟨c, hc⟩ := U_total y data hne hz
  obtain ⟨d, hd⟩ := U_total z data hne hz
  unfold Srz
  split <;> simp [ha, hb, hc, hd]

theorem Srs1_total (ln : α → α) (x y : α) (data : List (DataPoint α)) (hne : data ≠ [])
    (hz : NoZeroSpan data) : ∃ v, Srs1 ln x y data = some v := by
  obtain ⟨a, ha⟩ := Srz_total x y x data hne hz
  obtain ⟨b, hb⟩ := Srz_total y x y data hne hz
  unfold Srs1
  by_cases hv : x * x + 2 * y > 1
  · have hpos : 0 < x * x + 2 * y := lt_trans zero_lt_one hv
    simp [hv, ha, flog, hpos]
  · simp [hv, hb]

theorem Qrz1_total (ln : α → α) (x y : α) (data : List (DataPoint α)) (hne : data ≠ [])
    (hz : NoZeroSpan data) : ∃ v, Qrz1 ln x y data = some v := by
  obtain ⟨a, ha⟩ := Srs1_total ln x y data hne hz
  unfold Qrz1
  split <;> simp [ha]

theorem Srs2_total (x y z : α) (data : List (DataPoint α)) (hne : data ≠ [])
    (hz : NoZeroSpan data) : ∃ v, Srs2 x y z data = some v := by
  obtain ⟨a, ha⟩ := Srz_total x y z data hne hz
  obtain ⟨b, hb⟩ := Srz_total z x y data hne hz
  unfold Srs2
  split <;> simp [ha, hb]

theorem Qrz2_total (x y : α) (data : List (DataPoint α)) (hne : data ≠ [])
    (hz : NoZeroSpan data) : ∃ v, Qrz2 x y data = some v := by
  obtain ⟨a, ha⟩ := Srs2_total x y y data hne hz
  unfold Qrz2
  split <;> simp [ha]

theorem StrictAsc.noZeroSpan {data : List (DataPoint α)} (hs : StrictAsc data) :
    NoZeroSpan data := by
  intro j p c hp hc
  have h := List.pairwise_iff_getElem.mp hs
  have hj : j + 1 < data.length := by
    by_contra hlt
    rw [List.getElem?_eq_none (by omega)] at hc
    exact Option.noConfusion hc
  have hj0 : j < data.length := by omega
  have hlt := h j (j + 1) hj0 hj (Nat.lt_succ_self j)
  rw [List.getElem?_eq_getElem hj0] at hp
  rw [List.getElem?_eq_getElem hj] at hc
  rw [← Option.some.inj hp, ← Option.some.inj hc]
  exact ne_of_lt hlt

theorem main_of_table (ln : α → α) (x y z : α) (files : String → Option (List (DataPoint α)))
    (data : List (DataPoint α)) (hne : data ≠ []) (hf : files (selectFile x) = some data) :
    main ln (some (x, y, z)) files = Except.ok (fun_ ln x y z data) := by
  cases data with
  | nil => exact absurd rfl hne
  | cons d rest => simp [main, readData, hf]

/-- C6, as stated, fails: in the table `[(5,1,2), (5,3,4)]` the two samples share the
coordinate 5 and form the first bracketing pair of the query 5; `T 5` and `U 5` are
the result of the division by `x1 - x0 = 0`, which is not a number, and the run of the
program on the request `(5, 5, 5)` returns with that value: no exception is raised. -/
theorem degenerate_table_counterexample :
    FirstBracket (5 : ℝ) (tableDegenerate ℝ) 1 ⟨5, 1, 2⟩ ⟨5, 3, 4⟩ ∧
      T (5 : ℝ) (tableDegenerate ℝ) = none ∧ U (5 : ℝ) (tableDegenerate ℝ) = none ∧
      main Real.log (some ((5 : ℝ), (5 : ℝ), (5 : ℝ))) (fun _ => some (tableDegenerate ℝ)) =
        Except.ok none ∧
      ¬ ∃ e, main Real.log (some ((5 : ℝ), (5 : ℝ), (5 : ℝ)))
        (fun _ => some (tableDegenerate ℝ)) = Except.error e := by
  have hb : FirstBracket (5 : ℝ) (tableDegenerate ℝ) 1 ⟨5, 1, 2⟩ ⟨5, 3, 4⟩ := by
    refine ⟨le_refl 1, by simp [tableDegenerate], by simp [tableDegenerate], by norm_num, ?_⟩
    intro j p' c' h1 h2
    omega
  have hT : T (5 : ℝ) (tableDegenerate ℝ) = none := by
    norm_num [T, interpolate, interpolateFrom, tableDegenerate, fdiv, sel]
  have hU : U (5 : ℝ) (tableDegenerate ℝ) = none := by
    norm_num [U, interpolate, interpolateFrom, tableDegenerate, fdiv, sel]
  have hfun : fun_ Real.log (5 : ℝ) 5 5 (tableDegenerate ℝ) = none := by
    norm_num [fun_, fun1, Krn, Rrz, Qrz, Srs1, Srz, hT, hU]
  have hmain : main Real.log (some ((5 : ℝ), (5 : ℝ), (5 : ℝ)))
      (fun _ => some (tableDegenerate ℝ)) = Except.ok none := by
    rw [main_of_table Real.log 5 5 5 _ (tableDegenerate ℝ) (by simp [tableDegenerate]) rfl, hfun]
  refine ⟨hb, hT, hU, hmain, ?_⟩
  rintro ⟨e, he⟩
  rw [hmain] at he
  exact Except.noConfusion he

/-- C6, amended: the zero-span division is not guarded.  When the first bracketing
pair `(p, c)` of the query `q` has `p.x = c.x`, the divisor `c.x - p.x` is 0, `T q`
and `U q` are the result of that division, not a number, and a run of the program
on that table and a request `(q, y, z)` returns with the value of `fun`: it raises
no exception. -/
theorem interpolate_zero_span_unguarded (q : α) (data : List (DataPoint α)) (i : Nat)
    (p c : DataPoint α) (h : FirstBracket q data i p c) (heq : p.x = c.x) :
    c.x - p.x = 0 ∧ T q data = none ∧ U q data = none ∧
      ∀ (ln : α → α) (y z : α) (files : String → Option (List (DataPoint α))),
        files (selectFile q) = some data →
        main ln (some (q, y, z)) files = Except.ok (fun_ ln q y z data) := by
  have hd : c.x - p.x = 0 := sub_eq_zero.mpr heq.symm
  have hne : data ≠ [] := by
    rintro rfl
    simp [FirstBracket] at h
  refine ⟨hd, ?_, ?_, fun ln y z files hf => main_of_table ln q y z files data hne hf⟩
  · rw [T, interpolate_first q true data i p c h]
    simp [fdiv, hd]
  · rw [U, interpolate_first q false data i p c h]
    simp [fdiv, hd]

/-- C6, amended, on the table `[(5,1,2), (5,3,4)]` at the query 5. -/
theorem interpolate_zero_span_unguarded_witness :
    T (5 : ℚ) (tableDegenerate ℚ) = none ∧ U (5 : ℚ) (tableDegenerate ℚ) = none := by
  have hb : FirstBracket (5 : ℚ) (tableDegenerate ℚ) 1 ⟨5, 1, 2⟩ ⟨5, 3, 4⟩ := by
    refine ⟨le_refl 1, by simp [tableDegenerate], by simp [tableDegenerate], by norm_num, ?_⟩
    intro j p' c' h1 h2
    omega
  have h := interpolate_zero_span_unguarded (5 : ℚ) (tableDegenerate ℚ) 1 ⟨5, 1, 2⟩ ⟨5, 3, 4⟩
    hb rfl
  exact ⟨h.2.1, h.2.2.1⟩

/-! ## The dispatch of `fun` -/

/-- C7: when `x * x + 2 * y > 1`, `fun` returns `fun1 x y z`, which is
`x * Krn x y z + y * Krn x z y - z * Krn x z y`, whatever `Rrz2` and `Rrz3` are. -/
theorem fun_high_branch (ln : α → α) (x y z : α) (data : List (DataPoint α))
    (h : x * x + 2 * y > 1) :
    fun_ ln x y z data = fun1 ln x y z data ∧
      fun1 ln x y z data = (do
        let k1 ← Krn ln x y z data
        let k2 ← Krn ln x z y data
        pure (x * k1 + y * k2 - z * k2)) := by
  constructor
  · rw [fun_, if_pos h]
  · unfold fun1
    cases Krn ln x y z data <;> cases Krn ln x z y data <;> rfl

/-- C7 on the table `[(0,0,0), (1,10,5), (2,20,10)]` at the request `(1/2, 1/2, 1/2)`,
where `x * x + 2 * y = 5/4`. -/
theorem fun_high_branch_witness :
    fun_ Real.log (1 / 2 : ℝ) (1 / 2) (1 / 2) (tableEndToEnd ℝ) =
      fun1 Real.log (1 / 2 : ℝ) (1 / 2) (1 / 2) (tableEndToEnd ℝ) :=
  (fun_high_branch Real.log (1 / 2 : ℝ) (1 / 2) (1 / 2) (tableEndToEnd ℝ) (by norm_num)).1

/-- C8: when `x * x + 2 * y ≤ 1`, `fun` returns `Krn x y z` if `Rrz2 x y z` is not
exactly 0; otherwise `Krn2 x y z` if `Rrz3 x y z` is not exactly 0; otherwise
`fun5 x y z = 4.349 * x * x + 23.23 * y - 2.348 * x * y * z`. -/
theorem fun_low_dispatch (ln : α → α) (x y z : α) (data : List (DataPoint α))
    (h : x * x + 2 * y ≤ 1) :
    (Rrz2 ln x y z data ≠ some 0 → fun_ ln x y z data = Krn ln x y z data) ∧
      (Rrz2 ln x y z data = some 0 → Rrz3 x y z data ≠ some 0 →
        fun_ ln x y z data = Krn2 x y z data) ∧
      (Rrz2 ln x y z data = some 0 → Rrz3 x y z data = some 0 →
        fun_ ln x y z data = some (4.349 * x * x + 23.23 * y - 2.348 * x * y * z)) := by
  have hv : ¬ x * x + 2 * y > 1 := not_lt.mpr h
  refine ⟨fun h2 => ?_, fun h2 h3 => ?_, fun h2 h3 => ?_⟩
  · rw [fun_, if_neg hv, if_pos h2]
  · rw [fun_, if_neg hv, if_neg (not_not.mpr h2), if_pos h3]
  · rw [fun_, if_neg hv, if_neg (not_not.mpr h2), if_neg (not_not.mpr h3), fun5]

/-- C8 on the table `[(0,0,0), (10,100,50)]` at the request `(0, 0, 0)`: both tests
find an exact 0 and the result is `fun5 0 0 0 = 0`. -/
theorem fun_low_dispatch_witness :
    fun_ Real.log (0 : ℝ) 0 0 (tableLinear ℝ) = some 0 := by
  have h2 : Rrz2 Real.log (0 : ℝ) 0 0 (tableLinear ℝ) = some 0 := by
    norm_num [Rrz2, Qrz1, Srs1, Srz, T, U, interpolate, interpolateFrom, fdiv, sel, tableLinear]
  have h3 : Rrz3 (0 : ℝ) 0 0 (tableLinear ℝ) = some 0 := by
    norm_num [Rrz3, Qrz2, Srs2, Srz, T, U, interpolate, interpolateFrom, fdiv, sel, tableLinear]
  have h := (fun_low_dispatch Real.log (0 : ℝ) 0 0 (tableLinear ℝ) (by norm_num)).2.2 h2 h3
  rw [h]
  norm_num

/-- C9: on the table `[(0,0,0), (1,10,5), (2,20,10)]` and the request `(0.5, 0.5, 0.5)`,
`x * x + 2 * y = 1.25 > 1`, `T 0.5 = 5`, `Srz 0.5 0.5 0.5 = 5`,
`Srs1 0.5 0.5 = 5 + 0.5 * ln 1.25`, `Rrz 0 0.5 0.5 = 0`, and `fun` returns
`0.5 * 73.1389 * (0.625 + 0.0625 * ln 1.25)`, over exact real arithmetic. -/
theorem fun_end_to_end :
    (0.5 : ℝ) * 0.5 + 2 * 0.5 = 1.25 ∧
      T (0.5 : ℝ) (tableEndToEnd ℝ) = some 5 ∧
      Srz (0.5 : ℝ) 0.5 0.5 (tableEndToEnd ℝ) = some 5 ∧
      Srs1 Real.log (0.5 : ℝ) 0.5 (tableEndToEnd ℝ) = some (5 + 0.5 * Real.log 1.25) ∧
      Rrz Real.log (0 : ℝ) 0.5 0.5 (tableEndToEnd ℝ) = some 0 ∧
      fun_ Real.log (0.5 : ℝ) 0.5 0.5 (tableEndToEnd ℝ) =
        fun1 Real.log (0.5 : ℝ) 0.5 0.5 (tableEndToEnd ℝ) ∧
      fun_ Real.log (0.5 : ℝ) 0.5 0.5 (tableEndToEnd ℝ) =
        some (0.5 * 73.1389 * (0.625 + 0.0625 * Real.log 1.25)) := by
  refine ⟨by norm_num, ?_, ?_, ?_, ?_, ?_, ?_⟩
  · norm_num [T, interpolate, interpolateFrom, fdiv, sel, tableEndToEnd]
  · norm_num [Srz, T, U, interpolate, interpolateFrom, fdiv, sel, tableEndToEnd]
  · norm_num [Srs1, flog, Srz, T, U, interpolate, interpolateFrom, fdiv, sel, tableEndToEnd]
  · norm_num [Rrz, Qrz, Srs1, flog, Srz, T, U, interpolate, interpolateFrom, fdiv, sel,
      tableEndToEnd]
  · norm_num [fun_]
  · norm_num [fun_, fun1, Krn, Rrz, Qrz, Srs1, flog, Srz, T, U, interpolate, interpolateFrom,
      fdiv, sel, tableEndToEnd]
    ring

/-- C10, as stated, fails: the table `[(0,1,2), (0,3,4)]` is non-empty and sorted
ascending, and at the request `(0, 0, 0)` the query 0 meets its zero-span pair:
`Rrz2 0 0 0` is not a number, the test `Rrz2 != 0` holds, and `fun 0 0 0` is
`Krn 0 0 0`, not a number, instead of `fun5 0 0 0 = 0`. -/
theorem fun_origin_zero_span_counterexample :
    tableZeroTie ℝ ≠ [] ∧ SortedAsc (tableZeroTie ℝ) ∧
      Rrz2 Real.log (0 : ℝ) 0 0 (tableZeroTie ℝ) = none ∧
      fun_ Real.log (0 : ℝ) 0 0 (tableZeroTie ℝ) = Krn Real.log (0 : ℝ) 0 0 (tableZeroTie ℝ) ∧
      fun_ Real.log (0 : ℝ) 0 0 (tableZeroTie ℝ) = none ∧
      fun_ Real.log (0 : ℝ) 0 0 (tableZeroTie ℝ) ≠ some (fun5 0 0 0) := by
  have hT : T (0 : ℝ) (tableZeroTie ℝ) = none := by
    norm_num [T, interpolate, interpolateFrom, tableZeroTie, fdiv, sel]
  have hR : Rrz2 Real.log (0 : ℝ) 0 0 (tableZeroTie ℝ) = none := by
    norm_num [Rrz2, Qrz1, Srs1, Srz, hT]
  have hK : Krn Real.log (0 : ℝ) 0 0 (tableZeroTie ℝ) = none := by
    norm_num [Krn, Rrz, Qrz, Srs1, Srz, hT]
  have hF : fun_ Real.log (0 : ℝ) 0 0 (tableZeroTie ℝ) = Krn Real.log (0 : ℝ) 0 0 (tableZeroTie ℝ) := by
    have hv : ¬ ((0 : ℝ) * 0 + 2 * 0 > 1) := by norm_num
    rw [fun_, if_neg hv, hR, if_pos (by simp)]
  refine ⟨by simp [tableZeroTie], by simp [SortedAsc, tableZeroTie], hR, hF, by rw [hF, hK], ?_⟩
  rw [hF, hK]
  simp

theorem Rrz2_zero_x (ln : α → α) (y z : α) (data : List (DataPoint α)) :
    Rrz2 ln 0 y z data = some 0 ∨ Rrz2 ln 0 y z data = none := by
  unfold Rrz2
  split
  · cases Qrz1 ln y z data <;> simp
  · cases Qrz1 ln 0 y data <;> simp

theorem Rrz3_zero_x (y z : α) (data : List (DataPoint α)) :
    Rrz3 0 y z data = some 0 ∨ Rrz3 0 y z data = none := by
  unfold Rrz3
  split
  · cases Qrz2 y z data <;> simp
  · cases Qrz2 0 y data <;> simp

/-- C10, amended: for every table, every `y ≤ 1/2` and every `z`, `fun 0 y z` does not
take the `fun1` branch, and each of `Rrz2 0 y z` and `Rrz3 0 y z` is either 0 or not
a number; whenever both are numbers they are both 0 and `fun 0 y z` is
`fun5 0 y z = 23.23 * y`, whatever the table and `z` are.  In particular, whenever
`Rrz2 0 0 0` and `Rrz3 0 0 0` are numbers, `fun 0 0 0 = fun5 0 0 0 = 0`. -/
theorem fun_zero_x (ln : α → α) (data : List (DataPoint α)) :
    (∀ y z : α, y ≤ 1 / 2 →
        ¬ ((0 : α) * 0 + 2 * y > 1) ∧
        (Rrz2 ln 0 y z data = some 0 ∨ Rrz2 ln 0 y z data = none) ∧
        (Rrz3 0 y z data = some 0 ∨ Rrz3 0 y z data = none) ∧
        (Rrz2 ln 0 y z data ≠ none → Rrz3 0 y z data ≠ none →
          Rrz2 ln 0 y z data = some 0 ∧ Rrz3 0 y z data = some 0 ∧
          fun_ ln 0 y z data = some (fun5 0 y z) ∧ fun5 0 y z = 23.23 * y)) ∧
      (Rrz2 ln 0 0 0 data ≠ none → Rrz3 0 0 0 data ≠ none →
        ¬ ((0 : α) * 0 + 2 * 0 > 1) ∧ Rrz2 ln 0 0 0 data = some 0 ∧
        Rrz3 0 0 0 data = some 0 ∧ fun_ ln 0 0 0 data = some (fun5 0 0 0) ∧
        fun5 (0 : α) 0 0 = 0) := by
  have key : ∀ y z : α, y ≤ 1 / 2 →
      ¬ ((0 : α) * 0 + 2 * y > 1) ∧
      (Rrz2 ln 0 y z data = some 0 ∨ Rrz2 ln 0 y z data = none) ∧
      (Rrz3 0 y z data = some 0 ∨ Rrz3 0 y z data = none) ∧
      (Rrz2 ln 0 y z data ≠ none → Rrz3 0 y z data ≠ none →
        Rrz2 ln 0 y z data = some 0 ∧ Rrz3 0 y z data = some 0 ∧
        fun_ ln 0 y z data = some (fun5 0 y z) ∧ fun5 0 y z = 23.23 * y) := by
    intro y z hy
    have hv : ¬ ((0 : α) * 0 + 2 * y > 1) := by
      rw [not_lt]
      linarith
    refine ⟨hv, Rrz2_zero_x ln y z data, Rrz3_zero_x y z data, fun hn2 hn3 => ?_⟩
    have h2 : Rrz2 ln 0 y z data = some 0 := (Rrz2_zero_x ln y z data).resolve_right hn2
    have h3 : Rrz3 0 y z data = some 0 := (Rrz3_zero_x y z data).resolve_right hn3
    refine ⟨h2, h3, ?_, by simp [fun5]⟩
    rw [fun_, if_neg hv, if_neg (not_not.mpr h2), if_neg (not_not.mpr h3)]
  refine ⟨key, fun hn2 hn3 => ?_⟩
  obtain ⟨hv, _, _, h⟩ := key 0 0 (by norm_num)
  obtain ⟨h2, h3, hf, _⟩ := h hn2 hn3
  exact ⟨hv, h2, h3, hf, by simp [fun5]⟩

/-- C10, amended, on the table `[(0,0,0), (10,100,50)]`: `Rrz2 0 0 0` and `Rrz3 0 0 0`
are numbers and `fun 0 0 0 = 0`. -/
theorem fun_zero_x_witness :
    fun_ Real.log (0 : ℝ) 0 0 (tableLinear ℝ) = some (fun5 0 0 0) ∧ fun5 (0 : ℝ) 0 0 = 0 := by
  have h2 : Rrz2 Real.log (0 : ℝ) 0 0 (tableLinear ℝ) = some 0 := by
    norm_num [Rrz2, Qrz1, Srs1, Srz, T, U, interpolate, interpolateFrom, fdiv, sel, tableLinear]
  have h3 : Rrz3 (0 : ℝ) 0 0 (tableLinear ℝ) = some 0 := by
    norm_num [Rrz3, Qrz2, Srs2, Srz, T, U, interpolate, interpolateFrom, fdiv, sel, tableLinear]
  have h := (fun_zero_x Real.log (tableLinear ℝ)).2 (by rw [h2]; simp) (by rw [h3]; simp)
  exact ⟨h.2.2.2.1, h.2.2.2.2⟩

/-! ## The branches of the cascade -/

theorem interpolateFrom_isSome (q : α) :
    ∀ (rest : List (DataPoint α)) (prev : DataPoint α),
      (interpolateFrom q true prev rest).isSome = (interpolateFrom q false prev rest).isSome := by
  intro rest
  induction rest with
  | nil => exact fun _ => rfl
  | cons cur rest ih =>
    intro prev
    rw [interpolateFrom_cons, interpolateFrom_cons]
    by_cases hb : q ≥ prev.x ∧ q ≤ cur.x
    · rw [if_pos hb, if_pos hb]
      by_cases hd : cur.x - prev.x = 0 <;> simp [fdiv, hd]
    · rw [if_neg hb, if_neg hb]
      exact ih cur

theorem T_isSome_eq_U (q : α) (data : List (DataPoint α)) :
    (T q data).isSome = (U q data).isSome := by
  cases data with
  | nil => rfl
  | cons d rest => exact interpolateFrom_isSome q rest d

theorem Srz_tie (x y : α) (data : List (DataPoint α)) (h : x ≤ y) :
    Srz x y y data = T y data := by
  have hTU := T_isSome_eq_U y data
  rw [Srz, if_neg (not_lt.mpr h)]
  cases hT : T y data <;> cases hU : U y data <;> simp [hT, hU] at hTU ⊢

/-- C11: the guard of `Srs1` is strict.  When `x * x + 2 * y` is exactly 1, and
whenever it is at most 1, `Srs1 x y` is `y + Srz y x y`; only when it is greater than
1 is `Srs1 x y` equal to `Srz x y x + y * ln (x * x + 2 * y)`. -/
theorem Srs1_strict_guard (ln : α → α) (x y : α) (data : List (DataPoint α)) :
    (x * x + 2 * y = 1 →
        Srs1 ln x y data = (Srz y x y data).bind fun s => some (y + s)) ∧
      (x * x + 2 * y ≤ 1 →
        Srs1 ln x y data = (Srz y x y data).bind fun s => some (y + s)) ∧
      (x * x + 2 * y > 1 →
        Srs1 ln x y data =
          (Srz x y x data).bind fun s => some (s + y * ln (x * x + 2 * y))) := by
  have hle : x * x + 2 * y ≤ 1 →
      Srs1 ln x y data = (Srz y x y data).bind fun s => some (y + s) := by
    intro h
    have hv : ¬ x * x + 2 * y > 1 := not_lt.mpr h
    simp only [Srs1, if_neg hv]
    rfl
  refine ⟨fun h => hle (le_of_eq h), hle, fun h => ?_⟩
  have hpos : 0 < x * x + 2 * y := lt_trans zero_lt_one h
  simp only [Srs1, if_pos h, flog, if_pos hpos]
  cases Srz x y x data <;> rfl

/-- C11 at the boundary: on the table `[(0,0,0), (10,100,50)]`, `x = 1` and `y = 0`
give `x * x + 2 * y = 1`, and `Srs1 1 0` is `0 + Srz 0 1 0`. -/
theorem Srs1_strict_guard_witness :
    (1 : ℝ) * 1 + 2 * 0 = 1 ∧
      Srs1 Real.log (1 : ℝ) 0 (tableLinear ℝ) =
        (Srz (0 : ℝ) 1 0 (tableLinear ℝ)).bind fun s => some (0 + s) :=
  ⟨by norm_num, (Srs1_strict_guard Real.log (1 : ℝ) 0 (tableLinear ℝ)).1 (by norm_num)⟩

/-- C12: the duplicated variants are equal to the originals, `Qrz1 = Qrz` and
`Rrz2 = Rrz`, so that the second test of `fun` holds exactly when `Rrz x y z != 0`. -/
theorem Qrz1_Rrz2_eq (ln : α → α) (x y z : α) (data : List (DataPoint α)) :
    Qrz1 ln x y data = Qrz ln x y data ∧ Rrz2 ln x y z data = Rrz ln x y z data ∧
      (Rrz2 ln x y z data ≠ some 0 ↔ Rrz ln x y z data ≠ some 0) := by
  have hq : ∀ a b : α, Qrz1 ln a b data = Qrz ln a b data := fun _ _ => rfl
  have hr : Rrz2 ln x y z data = Rrz ln x y z data := by
    simp only [Rrz2, Rrz, hq]
  exact ⟨hq x y, hr, by rw [hr]⟩

/-- C16, amended: `Srz x y z` is `T x + U z - T y` when `x > y` and `T y + U y - U z`
when `x ≤ y`, the tie `x = y` included; in particular, when `x ≤ y`, `Srz x y y` is
`(T y + U y) - U y`, with whatever rounding `rnd` the operations have, and over
exact arithmetic this is `T y`. -/
theorem Srz_branches (x y z : α) (data : List (DataPoint α)) :
    (x > y → Srz x y z data = (do
        let a ← T x data
        let b ← U z data
        let c ← T y data
        pure (a + b - c))) ∧
      (x ≤ y → Srz x y z data = (do
        let a ← T y data
        let b ← U y data
        let c ← U z data
        pure (a + b - c))) ∧
      (x = y → Srz x y z data = (do
        let a ← T y data
        let b ← U y data
        let c ← U z data
        pure (a + b - c))) ∧
      (x ≤ y → ∀ rnd : α → α, Rounded.Srz rnd x y y data = (do
        let a ← Rounded.T rnd y data
        let b ← Rounded.U rnd y data
        pure (rnd (rnd (a + b) - b)))) ∧
      (x ≤ y → Srz x y y data = T y data) := by
  have hle : x ≤ y → Srz x y z data = (do
      let a ← T y data
      let b ← U y data
      let c ← U z data
      pure (a + b - c)) := fun h => by rw [Srz, if_neg (not_lt.mpr h)]
  refine ⟨fun h => by rw [Srz, if_pos h], hle, fun h => hle (le_of_eq h), fun h rnd => ?_,
    Srz_tie x y data⟩
  rw [Rounded.Srz, if_neg (not_lt.mpr h)]
  cases Rounded.T rnd y data <;> cases Rounded.U rnd y data <;> rfl

/-- C16, amended, on the table `[(0,0,0), (10,100,50)]` in exact arithmetic:
`Srz 5 5 5 = T 5 = 50`. -/
theorem Srz_branches_witness :
    Srz (5 : ℚ) 5 5 (tableLinear ℚ) = some 50 := by
  rw [(Srz_branches (5 : ℚ) 5 5 (tableLinear ℚ)).2.2.2.2 (le_refl 5)]
  norm_num [T, interpolate, interpolateFrom, tableLinear, fdiv, sel]

/-- C17: `Srs2` and `Srs3` differ at the tie `z = y`, where `Srs2 x y z` is
`Srz x y z + 1.44 * y * z` and `Srs3 x y z` is `y + Srz z x y`; for `z > y` both take
their first branch and for `z < y` both take their second one. -/
theorem Srs2_Srs3_tie (x y z : α) (data : List (DataPoint α)) :
    (z = y →
        Srs2 x y z data = ((Srz x y z data).bind fun s => some (s + 1.44 * y * z)) ∧
        Srs3 x y z data = ((Srz z x y data).bind fun s => some (y + s))) ∧
      (z > y →
        Srs2 x y z data = ((Srz x y z data).bind fun s => some (s + 1.44 * y * z)) ∧
        Srs3 x y z data = ((Srz x y z data).bind fun s => some (s + y * z))) ∧
      (z < y →
        Srs2 x y z data = ((Srz z x y data).bind fun s => some (1.44 * y * s)) ∧
        Srs3 x y z data = ((Srz z x y data).bind fun s => some (y + s))) := by
  refine ⟨fun h => ⟨?_, ?_⟩, fun h => ⟨?_, ?_⟩, fun h => ⟨?_, ?_⟩⟩
  · rw [Srs2, if_pos (le_of_eq h.symm)]
    rfl
  · rw [Srs3, if_neg (not_lt.mpr (le_of_eq h))]
    rfl
  · rw [Srs2, if_pos (le_of_lt h)]
    rfl
  · rw [Srs3, if_pos h]
    rfl
  · rw [Srs2, if_neg (not_le.mpr h)]
    rfl
  · rw [Srs3, if_neg (not_lt.mpr (le_of_lt h))]
    rfl

/-- C17 on the table `[(0,0,0), (10,100,50)]` at the tie `y = z = 5` with `x = 5`:
`Srs2 5 5 5 = 50 + 1.44 * 25 = 86` and `Srs3 5 5 5 = 5 + 50 = 55`. -/
theorem Srs2_Srs3_tie_witness :
    Srs2 (5 : ℚ) 5 5 (tableLinear ℚ) = some 86 ∧ Srs3 (5 : ℚ) 5 5 (tableLinear ℚ) = some 55 := by
  obtain ⟨h2, h3⟩ := (Srs2_Srs3_tie (5 : ℚ) 5 5 (tableLinear ℚ)).1 rfl
  have hS : Srz (5 : ℚ) 5 5 (tableLinear ℚ) = some 50 := by
    norm_num [Srz, T, U, interpolate, interpolateFrom, tableLinear, fdiv, sel]
  rw [h2, h3, hS]
  norm_num

/-- C18: `Qrz2` calls `Srs2` with its last two arguments equal, so `Srs2 x y y` is
`Srz x y y + 1.44 * y * y`, its first branch, and `Qrz2 x y` is
`x * (Srz x y y + 1.44 * y * y)` when `|x| < 1` and `y * (Srz x y y + 1.44 * y * y)`
otherwise. -/
theorem Qrz2_first_branch (x y : α) (data : List (DataPoint α)) :
    Srs2 x y y data = ((Srz x y y data).bind fun s => some (s + 1.44 * y * y)) ∧
      (|x| < 1 →
        Qrz2 x y data = (Srz x y y data).bind fun s => some (x * (s + 1.44 * y * y))) ∧
      (¬ |x| < 1 →
        Qrz2 x y data = (Srz x y y data).bind fun s => some (y * (s + 1.44 * y * y))) := by
  have h2 : Srs2 x y y data = ((Srz x y y data).bind fun s => some (s + 1.44 * y * y)) := by
    rw [Srs2, if_pos (le_refl y)]
    rfl
  refine ⟨h2, fun h => ?_, fun h => ?_⟩
  · rw [Qrz2, if_pos h, h2]
    cases Srz x y y data <;> rfl
  · rw [Qrz2, if_neg h, h2]
    cases Srz x y y data <;> rfl

/-- C18 on the table `[(0,0,0), (10,100,50)]`: `Qrz2 5 5 = 5 * (50 + 1.44 * 25) = 430`. -/
theorem Qrz2_first_branch_witness :
    Qrz2 (5 : ℚ) 5 (tableLinear ℚ) = some 430 := by
  have hS : Srz (5 : ℚ) 5 5 (tableLinear ℚ) = some 50 := by
    norm_num [Srz, T, U, interpolate, interpolateFrom, tableLinear, fdiv, sel]
  rw [(Qrz2_first_branch (5 : ℚ) 5 (tableLinear ℚ)).2.2 (by norm_num), hS]
  norm_num

/-! ## The choice of the table file -/

/-- C15: the table file depends on `x` alone.  `x > 1` selects `dat_X_1_1.dat`;
`x = 1` or `x = -1` selects `dat_X_1_00.dat`; every other `x`, in particular every
`x < -1` and every `x` with `|x| < 1`, selects `dat_X_00_1.dat`; and a run of the
program on `(x, y, z)` reads no other file than the selected one. -/
theorem selectFile_cases (x : α) :
    (x > 1 → selectFile x = ("dat_X_1_1.dat")) ∧
      (x = 1 ∨ x = -1 → selectFile x = ("dat_X_1_00.dat")) ∧
      (¬ x > 1 → ¬ (x = 1 ∨ x = -1) → selectFile x = ("dat_X_00_1.dat")) ∧
      (x < -1 → selectFile x = ("dat_X_00_1.dat")) ∧
      (|x| < 1 → selectFile x = ("dat_X_00_1.dat")) ∧
      ∀ (ln : α → α) (y z : α) (files files' : String → Option (List (DataPoint α))),
        files (selectFile x) = files' (selectFile x) →
        main ln (some (x, y, z)) files = main ln (some (x, y, z)) files' := by
  have hlow : ¬ x > 1 → ¬ (x = 1 ∨ x = -1) → selectFile x = ("dat_X_00_1.dat") := by
    intro h1 h2
    rw [selectFile, if_neg h1, if_neg h2]
  refine ⟨fun h => ?_, fun h => ?_, hlow, fun h => ?_, fun h => ?_, ?_⟩
  · rw [selectFile, if_pos h]
  · have h1 : ¬ x > 1 := by
      rcases h with h | h <;> rw [h] <;> norm_num
    rw [selectFile, if_neg h1, if_pos h]
  · apply hlow
    · intro h1
      linarith
    · rintro (h1 | h1) <;> linarith
  · have hx := abs_lt.mp h
    apply hlow
    · intro h1
      linarith [hx.2]
    · rintro (h1 | h1)
      · linarith [hx.2]
      · linarith [hx.1]
  · intro ln y z files files' hf
    simp only [main, hf]

/-- C15 at `x = -1`, `x = 2`, `x = -3` and `x = 1/2`. -/
theorem selectFile_cases_witness :
    selectFile (-1 : ℚ) = ("dat_X_1_00.dat") ∧ selectFile (2 : ℚ) = ("dat_X_1_1.dat") ∧
      selectFile (-3 : ℚ) = ("dat_X_00_1.dat") ∧ selectFile (1 / 2 : ℚ) = ("dat_X_00_1.dat") :=
  ⟨(selectFile_cases (-1 : ℚ)).2.1 (Or.inr rfl), (selectFile_cases (2 : ℚ)).1 (by norm_num),
    (selectFile_cases (-3 : ℚ)).2.2.2.1 (by norm_num),
    (selectFile_cases (1 / 2 : ℚ)).2.2.2.2.1 (by rw [abs_lt]; constructor <;> norm_num)⟩

/-! ## The `Krn2` branch -/

/-- C20: the `Krn2` branch of `fun` is reachable.  On the table `[(0, 0, -0.2)]` and
the request `(0.1, 0.2, 1)`, `x * x + 2 * y ≤ 1`, `Rrz2 x y z = 0`,
`Rrz3 x y z = 0.000576 ≠ 0`, and `fun x y z` is
`Krn2 x y z = 83.1389 * Rrz3 x y z + 4.838 * Rrz3 x z y`. -/
theorem Krn2_branch_reachable :
    tableKernel2 ℝ ≠ [] ∧ (0.1 : ℝ) * 0.1 + 2 * 0.2 ≤ 1 ∧
      Rrz2 Real.log (0.1 : ℝ) 0.2 1 (tableKernel2 ℝ) = some 0 ∧
      Rrz3 (0.1 : ℝ) 0.2 1 (tableKernel2 ℝ) = some 0.000576 ∧
      Rrz3 (0.1 : ℝ) 0.2 1 (tableKernel2 ℝ) ≠ some 0 ∧
      Rrz3 (0.1 : ℝ) 1 0.2 (tableKernel2 ℝ) = some 0.00288 ∧
      fun_ Real.log (0.1 : ℝ) 0.2 1 (tableKernel2 ℝ) = Krn2 (0.1 : ℝ) 0.2 1 (tableKernel2 ℝ) ∧
      Krn2 (0.1 : ℝ) 0.2 1 (tableKernel2 ℝ) = some (83.1389 * 0.000576 + 4.838 * 0.00288) := by
  have h2 : Rrz2 Real.log (0.1 : ℝ) 0.2 1 (tableKernel2 ℝ) = some 0 := by
    norm_num [Rrz2, Qrz1, Srs1, Srz, T, U, interpolate, interpolateFrom, sel, tableKernel2]
  have h3 : Rrz3 (0.1 : ℝ) 0.2 1 (tableKernel2 ℝ) = some 0.000576 := by
    norm_num [Rrz3, Qrz2, Srs2, Srz, T, U, interpolate, interpolateFrom, sel, tableKernel2,
      abs_lt]
  have h3' : Rrz3 (0.1 : ℝ) 1 0.2 (tableKernel2 ℝ) = some 0.00288 := by
    norm_num [Rrz3, Qrz2, Srs2, Srz, T, U, interpolate, interpolateFrom, sel, tableKernel2,
      abs_lt]
  have hne : Rrz3 (0.1 : ℝ) 0.2 1 (tableKernel2 ℝ) ≠ some 0 := by
    rw [h3]
    norm_num
  have hv : ¬ ((0.1 : ℝ) * 0.1 + 2 * 0.2 > 1) := by norm_num
  refine ⟨by simp [tableKernel2], by norm_num, h2, h3, hne, h3', ?_, ?_⟩
  · rw [fun_, if_neg hv, if_neg (not_not.mpr h2), if_pos hne]
  · rw [Krn2, h3, h3']
    rfl

/-! ## The calls of `log` -/

theorem Srs1_congr (ln ln' : α → α) (h : ∀ v, 1 < v → ln' v = ln v) (x y : α)
    (data : List (DataPoint α)) : Srs1 ln' x y data = Srs1 ln x y data := by
  unfold Srs1
  by_cases hv : x * x + 2 * y > 1
  · have hpos : 0 < x * x + 2 * y := lt_trans zero_lt_one hv
    simp only [if_pos hv, flog, if_pos hpos, h _ hv]
  · simp only [if_neg hv]

theorem Rrz_congr (ln ln' : α → α) (h : ∀ v, 1 < v → ln' v = ln v) (x y z : α)
    (data : List (DataPoint α)) : Rrz ln' x y z data = Rrz ln x y z data := by
  simp only [Rrz, Qrz, Srs1_congr ln ln' h]

theorem Rrz2_congr (ln ln' : α → α) (h : ∀ v, 1 < v → ln' v = ln v) (x y z : α)
    (data : List (DataPoint α)) : Rrz2 ln' x y z data = Rrz2 ln x y z data := by
  simp only [Rrz2, Qrz1, Srs1_congr ln ln' h]

theorem fun_congr (ln ln' : α → α) (h : ∀ v, 1 < v → ln' v = ln v) (x y z : α)
    (data : List (DataPoint α)) : fun_ ln' x y z data = fun_ ln x y z data := by
  simp only [fun_, fun1, Krn, Rrz_congr ln ln' h, Rrz2_congr ln ln' h]

theorem U_some_of_T (data : List (DataPoint α)) (hT : ∀ q : α, ∃ v, T q data = some v)
    (q : α) : ∃ v, U q data = some v := by
  obtain ⟨v, hv⟩ := hT q
  have h := T_isSome_eq_U q data
  rw [hv] at h
  cases hU : U q data with
  | none => simp [hU] at h
  | some w => exact ⟨w, rfl⟩

theorem Srz_some_of_T (x y z : α) (data : List (DataPoint α))
    (hT : ∀ q : α, ∃ v, T q data = some v) : ∃ v, Srz x y z data = some v := by
  obtain ⟨a, ha⟩ := hT x
  obtain ⟨b, hb⟩ := hT y
  obtain ⟨c, hc⟩ := U_some_of_T data hT y
  obtain ⟨d, hd⟩ := U_some_of_T data hT z
  unfold Srz
  split <;> simp [ha, hb, hc, hd]

theorem Srs1_none_iff (ln : α → α) (x y : α) (data : List (DataPoint α)) :
    Srs1 ln x y data = none ↔
      (if x * x + 2 * y > 1 then Srz x y x data else Srz y x y data) = none := by
  unfold Srs1
  by_cases hv : x * x + 2 * y > 1
  · have hpos : 0 < x * x + 2 * y := lt_trans zero_lt_one hv
    simp only [if_pos hv, flog, if_pos hpos]
    cases Srz x y x data <;> simp
  · simp only [if_neg hv]
    cases Srz y x y data <;> simp

theorem Srs1_some_of_T (ln : α → α) (x y : α) (data : List (DataPoint α))
    (hT : ∀ q : α, ∃ v, T q data = some v) : ∃ v, Srs1 ln x y data = some v := by
  cases h : Srs1 ln x y data with
  | some v => exact ⟨v, rfl⟩
  | none =>
    rw [Srs1_none_iff] at h
    split at h
    · obtain ⟨v, hv⟩ := Srz_some_of_T x y x data hT
      rw [hv] at h
      exact Option.noConfusion h
    · obtain ⟨v, hv⟩ := Srz_some_of_T y x y data hT
      rw [hv] at h
      exact Option.noConfusion h

theorem Rrz_some_of_T (ln : α → α) (x y z : α) (data : List (DataPoint α))
    (hT : ∀ q : α, ∃ v, T q data = some v) : ∃ v, Rrz ln x y z data = some v := by
  obtain ⟨a, ha⟩ := Srs1_some_of_T ln y z data hT
  obtain ⟨b, hb⟩ := Srs1_some_of_T ln x y data hT
  unfold Rrz Qrz
  split <;> split <;> simp [ha, hb]

theorem Rrz3_some_of_T (x y z : α) (data : List (DataPoint α))
    (hT : ∀ q : α, ∃ v, T q data = some v) : ∃ v, Rrz3 x y z data = some v := by
  obtain ⟨a, ha⟩ := Srz_some_of_T y z z data hT
  obtain ⟨b, hb⟩ := Srz_some_of_T x y y data hT
  unfold Rrz3 Qrz2 Srs2
  split <;> split <;> simp [ha, hb]

theorem fun_some_of_T (ln : α → α) (x y z : α) (data : List (DataPoint α))
    (hT : ∀ q : α, ∃ v, T q data = some v) : ∃ v, fun_ ln x y z data = some v := by
  have hK : ∀ a b c : α, ∃ v, Krn ln a b c data = some v := by
    intro a b c
    obtain ⟨r1, h1⟩ := Rrz_some_of_T ln a b c data hT
    obtain ⟨r2, h2⟩ := Rrz_some_of_T ln (a - b) c b data hT
    simp [Krn, h1, h2]
  unfold fun_
  split
  · obtain ⟨k1, h1⟩ := hK x y z
    obtain ⟨k2, h2⟩ := hK x z y
    simp [fun1, h1, h2]
  · split
    · exact hK x y z
    · split
      · obtain ⟨r1, h1⟩ := Rrz3_some_of_T x y z data hT
        obtain ⟨r2, h2⟩ := Rrz3_some_of_T x z y data hT
        simp [Krn2, h1, h2]
      · exact ⟨_, rfl⟩

/-- C13: the logarithm never fails in the cascade.  `Srs1`, the one function that
calls `log`, is not a number only when the `Srz` value it adds is not a number: its
call `log(val)` stands under the guard `val > 1`, where the logarithm is defined.
Hence `fun x y z` does not depend on the logarithm at arguments that are not
greater than 1, and it is a number whenever every interpolation is one. -/
theorem log_never_fails (ln : α → α) (x y z : α) (data : List (DataPoint α)) :
    (∀ a b : α, Srs1 ln a b data = none ↔
        (if a * a + 2 * b > 1 then Srz a b a data else Srz b a b data) = none) ∧
      (∀ ln' : α → α, (∀ v, 1 < v → ln' v = ln v) →
        fun_ ln' x y z data = fun_ ln x y z data) ∧
      ((∀ q : α, ∃ v, T q data = some v) → ∃ v, fun_ ln x y z data = some v) :=
  ⟨fun a b => Srs1_none_iff ln a b data, fun ln' h => fun_congr ln ln' h x y z data,
    fun hT => fun_some_of_T ln x y z data hT⟩

/-- C13 on the table `[(0,0,0), (5,1,2), (5,3,4)]`: every interpolation is a number
(the query 5 is bracketed by the first pair), and `fun 2 3 4`, which calls `log` at
the argument `2 * 2 + 2 * 3 = 10`, is a number. -/
theorem log_never_fails_witness :
    ∃ v, fun_ Real.log (2 : ℝ) 3 4 (tableTie ℝ) = some v := by
  apply (log_never_fails Real.log (2 : ℝ) 3 4 (tableTie ℝ)).2.2
  intro q
  by_cases h1 : q ≥ 0 ∧ q ≤ 5
  · exact ⟨_, by simp [T, interpolate, interpolateFrom, tableTie, fdiv, h1]; rfl⟩
  · have h2 : ¬ (q ≥ 5 ∧ q ≤ 5) := fun h => h1 ⟨le_trans (by norm_num) h.1, h.2⟩
    exact ⟨_, by simp [T, interpolate, interpolateFrom, tableTie, h1, h2]; rfl⟩

/-! ## Totality and range -/

theorem firstBracket_or_noBracket (q : α) :
    ∀ (rest : List (DataPoint α)) (prev : DataPoint α),
      (∃ i p c, FirstBracket q (prev :: rest) i p c) ∨ NoBracket q (prev :: rest) := by
  intro rest
  induction rest with
  | nil => exact fun prev => Or.inr (noBracket_of_length_le_one q [prev] (by simp))
  | cons cur rest ih =>
    intro prev
    by_cases hb : q ≥ prev.x ∧ q ≤ cur.x
    · left
      refine ⟨1, prev, cur, le_refl 1, by simp, by simp, hb, ?_⟩
      intro j p' c' h1 h2
      omega
    · rcases ih cur with ⟨i, p, c, hi, hp, hc, hbr, hlow⟩ | hno
      · left
        obtain ⟨k, rfl⟩ : ∃ k, i = k + 1 := ⟨i - 1, by omega⟩
        refine ⟨k + 1 + 1, p, c, by omega, by simpa using hp, by simpa using hc, hbr, ?_⟩
        intro j p' c' hj1 hj2 hp' hc'
        obtain ⟨m, rfl⟩ : ∃ m, j = m + 1 := ⟨j - 1, by omega⟩
        cases m with
        | zero =>
          simp at hp' hc'
          subst hp'
          subst hc'
          exact hb
        | succ m =>
          exact hlow (m + 1) p' c' (by omega) (by omega) (by simpa using hp')
            (by simpa using hc')
      · right
        intro j p c hp hc
        cases j with
        | zero =>
          simp at hp hc
          subst hp
          subst hc
          exact hb
        | succ j => exact hno j p c (by simpa using hp) (by simpa using hc)

theorem FirstBracket.span_ne_zero {q : α} {data : List (DataPoint α)} {i : Nat}
    {p c : DataPoint α} (h : FirstBracket q data i p c) (hz : NoZeroSpan data) :
    c.x - p.x ≠ 0 := by
  obtain ⟨hi, hp, hc, _, _⟩ := h
  obtain ⟨k, rfl⟩ : ∃ k, i = k + 1 := ⟨i - 1, by omega⟩
  exact sub_ne_zero.mpr (Ne.symm (hz k p c (by simpa using hp) hc))

theorem interpolate_first_value (q : α) (isT : Bool) (data : List (DataPoint α)) (i : Nat)
    (p c : DataPoint α) (h : FirstBracket q data i p c) (hz : NoZeroSpan data) :
    interpolate q data isT =
      some (sel isT p + (sel isT c - sel isT p) * (q - p.x) / (c.x - p.x)) := by
  rw [interpolate_first q isT data i p c h]
  simp [fdiv, h.span_ne_zero hz]

theorem interpolate_cases (q : α) (isT : Bool) (data : List (DataPoint α)) (hne : data ≠ [])
    (hz : NoZeroSpan data) :
    (∃ i p c, FirstBracket q data i p c ∧ c.x - p.x ≠ 0 ∧
        interpolate q data isT =
          some (sel isT p + (sel isT c - sel isT p) * (q - p.x) / (c.x - p.x))) ∨
      (NoBracket q data ∧ ∃ l, data.getLast? = some l ∧
        interpolate q data isT = some (sel isT l)) := by
  cases data with
  | nil => exact absurd rfl hne
  | cons d rest =>
    rcases firstBracket_or_noBracket q rest d with ⟨i, p, c, h⟩ | hno
    · exact Or.inl ⟨i, p, c, h, h.span_ne_zero hz, interpolate_first_value q isT _ i p c h hz⟩
    · have hl := List.getLast?_eq_getLast (d :: rest) hne
      exact Or.inr ⟨hno, _, hl, interpolate_noBracket q isT _ _ hno hl⟩

theorem Rrz2_total (ln : α → α) (x y z : α) (data : List (DataPoint α)) (hne : data ≠ [])
    (hz : NoZeroSpan data) : ∃ v, Rrz2 ln x y z data = some v := by
  obtain ⟨a, ha⟩ := Qrz1_total ln y z data hne hz
  obtain ⟨b, hb⟩ := Qrz1_total ln x y data hne hz
  unfold Rrz2
  split <;> simp [ha, hb]

theorem Rrz_total (ln : α → α) (x y z : α) (data : List (DataPoint α)) (hne : data ≠ [])
    (hz : NoZeroSpan data) : ∃ v, Rrz ln x y z data = some v :=
  Rrz2_total ln x y z data hne hz

theorem Rrz3_total (x y z : α) (data : List (DataPoint α)) (hne : data ≠ [])
    (hz : NoZeroSpan data) : ∃ v, Rrz3 x y z data = some v := by
  obtain ⟨a, ha⟩ := Qrz2_total y z data hne hz
  obtain ⟨b, hb⟩ := Qrz2_total x y data hne hz
  unfold Rrz3
  split <;> simp [ha, hb]

theorem Krn_total (ln : α → α) (x y z : α) (data : List (DataPoint α)) (hne : data ≠ [])
    (hz : NoZeroSpan data) : ∃ v, Krn ln x y z data = some v := by
  obtain ⟨a, ha⟩ := Rrz_total ln x y z data hne hz
  obtain ⟨b, hb⟩ := Rrz_total ln (x - y) z y data hne hz
  simp [Krn, ha, hb]

theorem Krn2_total (x y z : α) (data : List (DataPoint α)) (hne : data ≠ [])
    (hz : NoZeroSpan data) : ∃ v, Krn2 x y z data = some v := by
  obtain ⟨a, ha⟩ := Rrz3_total x y z data hne hz
  obtain ⟨b, hb⟩ := Rrz3_total x z y data hne hz
  simp [Krn2, ha, hb]

theorem fun1_total (ln : α → α) (x y z : α) (data : List (DataPoint α)) (hne : data ≠ [])
    (hz : NoZeroSpan data) : ∃ v, fun1 ln x y z data = some v := by
  obtain ⟨a, ha⟩ := Krn_total ln x y z data hne hz
  obtain ⟨b, hb⟩ := Krn_total ln x z y data hne hz
  simp [fun1, ha, hb]

theorem fun_some (ln : α → α) (x y z : α) (data : List (DataPoint α)) (hne : data ≠ [])
    (hz : NoZeroSpan data) : ∃ v, fun_ ln x y z data = some v := by
  unfold fun_
  split
  · exact fun1_total ln x y z data hne hz
  · split
    · exact Krn_total ln x y z data hne hz
    · split
      · exact Krn2_total x y z data hne hz
      · exact ⟨_, rfl⟩

/-- C14: on a non-empty table with strictly increasing coordinates `fun x y z` is a
number, for all `x`, `y`, `z`.  Every interpolation either selects a first bracketing
pair whose span `x1 - x0` is not 0 and returns the interpolated number, or finds no
bracketing pair and returns the value of the last sample; and the run of the
program on such a table returns with a number. -/
theorem fun_total (ln : α → α) (x y z : α) (data : List (DataPoint α)) (hne : data ≠ [])
    (hs : StrictAsc data) :
    (∃ v, fun_ ln x y z data = some v) ∧
      (∀ (q : α) (isT : Bool),
        (∃ i p c, FirstBracket q data i p c ∧ c.x - p.x ≠ 0 ∧
            interpolate q data isT =
              some (sel isT p + (sel isT c - sel isT p) * (q - p.x) / (c.x - p.x))) ∨
          (NoBracket q data ∧ ∃ l, data.getLast? = some l ∧
            interpolate q data isT = some (sel isT l))) ∧
      ∀ files : String → Option (List (DataPoint α)), files (selectFile x) = some data →
        ∃ v, main ln (some (x, y, z)) files = Except.ok (some v) := by
  have hz : NoZeroSpan data := hs.noZeroSpan
  obtain ⟨v, hv⟩ := fun_some ln x y z data hne hz
  refine ⟨⟨v, hv⟩, fun q isT => interpolate_cases q isT data hne hz, fun files hf => ⟨v, ?_⟩⟩
  rw [main_of_table ln x y z files data hne hf, hv]

/-- C14 on the table `[(0,0,0), (1,10,5), (2,20,10)]` at the request `(0.5, 0.5, 0.5)`. -/
theorem fun_total_witness :
    ∃ v, fun_ Real.log (0.5 : ℝ) 0.5 0.5 (tableEndToEnd ℝ) = some v :=
  (fun_total Real.log (0.5 : ℝ) 0.5 0.5 (tableEndToEnd ℝ) (by simp [tableEndToEnd])
    (by simp [StrictAsc, tableEndToEnd])).1

theorem lerp_between (x0 x1 y0 y1 q : α) (h0 : x0 ≤ q) (h1 : q ≤ x1) (hd : x1 - x0 ≠ 0) :
    min y0 y1 ≤ y0 + (y1 - y0) * (q - x0) / (x1 - x0) ∧
      y0 + (y1 - y0) * (q - x0) / (x1 - x0) ≤ max y0 y1 := by
  have hpos : 0 < x1 - x0 :=
    lt_of_le_of_ne (sub_nonneg.mpr (le_trans h0 h1)) (Ne.symm hd)
  have ht0 : 0 ≤ (q - x0) / (x1 - x0) := div_nonneg (sub_nonneg.mpr h0) (le_of_lt hpos)
  have ht1 : (q - x0) / (x1 - x0) ≤ 1 := (div_le_one hpos).mpr (by linarith)
  rw [mul_div_assoc]
  rcases le_total y0 y1 with h | h
  · rw [min_eq_left h, max_eq_right h]
    constructor
    · nlinarith [mul_nonneg (sub_nonneg.mpr h) ht0]
    · nlinarith [mul_nonneg (sub_nonneg.mpr h) (sub_nonneg.mpr ht1)]
  · rw [min_eq_right h, max_eq_left h]
    constructor
    · nlinarith [mul_nonneg (sub_nonneg.mpr h) (sub_nonneg.mpr ht1)]
    · nlinarith [mul_nonneg (sub_nonneg.mpr h) ht0]

theorem interpolate_range (q : α) (isT : Bool) (data : List (DataPoint α)) (hne : data ≠ [])
    (hz : NoZeroSpan data) :
    ∃ v, interpolate q data isT = some v ∧
      (∃ lo ∈ data, sel isT lo ≤ v) ∧ (∃ hi ∈ data, v ≤ sel isT hi) ∧
      ∀ (i : Nat) (p c : DataPoint α), FirstBracket q data i p c →
        min (sel isT p) (sel isT c) ≤ v ∧ v ≤ max (sel isT p) (sel isT c) := by
  have hbr : ∀ (i : Nat) (p c : DataPoint α), FirstBracket q data i p c →
      interpolate q data isT =
          some (sel isT p + (sel isT c - sel isT p) * (q - p.x) / (c.x - p.x)) ∧
        min (sel isT p) (sel isT c) ≤
          sel isT p + (sel isT c - sel isT p) * (q - p.x) / (c.x - p.x) ∧
        sel isT p + (sel isT c - sel isT p) * (q - p.x) / (c.x - p.x) ≤
          max (sel isT p) (sel isT c) := by
    intro i p c h
    have hb := h.2.2.2.1
    exact ⟨interpolate_first_value q isT data i p c h hz,
      lerp_between p.x c.x (sel isT p) (sel isT c) q hb.1 hb.2 (h.span_ne_zero hz)⟩
  rcases interpolate_cases q isT data hne hz with ⟨i, p, c, h, _, hv⟩ | ⟨hno, l, hl, hv⟩
  · obtain ⟨_, hmin, hmax⟩ := hbr i p c h
    have hp : p ∈ data := List.getElem?_mem h.2.1
    have hc : c ∈ data := List.getElem?_mem h.2.2.1
    refine ⟨_, hv, ?_, ?_, ?_⟩
    · rcases min_choice (sel isT p) (sel isT c) with hm | hm
      · exact ⟨p, hp, by rw [hm] at hmin; exact hmin⟩
      · exact ⟨c, hc, by rw [hm] at hmin; exact hmin⟩
    · rcases max_choice (sel isT p) (sel isT c) with hm | hm
      · exact ⟨p, hp, by rw [hm] at hmax; exact hmax⟩
      · exact ⟨c, hc, by rw [hm] at hmax; exact hmax⟩
    · intro i' p' c' h'
      obtain ⟨hv', hmin', hmax'⟩ := hbr i' p' c' h'
      rw [hv] at hv'
      rw [Option.some.inj hv']
      exact ⟨hmin', hmax'⟩
  · have hmem : l ∈ data := List.mem_of_getLast?_eq_some hl
    refine ⟨_, hv, ⟨l, hmem, le_refl _⟩, ⟨l, hmem, le_refl _⟩, ?_⟩
    intro i p c h
    obtain ⟨hi, hp, hc, hb, _⟩ := h
    obtain ⟨k, rfl⟩ : ∃ k, i = k + 1 := ⟨i - 1, by omega⟩
    exact absurd hb (hno k p c (by simpa using hp) hc)

theorem StrictAsc.le_of_index_le {data : List (DataPoint α)} (hs : StrictAsc data)
    {a b : Nat} {s t : DataPoint α} (ha : data[a]? = some s) (hb : data[b]? = some t)
    (hab : a ≤ b) : s.x ≤ t.x := by
  rcases Nat.eq_or_lt_of_le hab with h | h
  · subst h
    rw [ha] at hb
    rw [Option.some.inj hb]
  · have hbl : b < data.length := by
      by_contra hlt
      rw [List.getElem?_eq_none (by omega)] at hb
      exact Option.noConfusion hb
    have hal : a < data.length := by omega
    have hlt := List.pairwise_iff_getElem.mp hs a b hal hbl h
    rw [List.getElem?_eq_getElem hal] at ha
    rw [List.getElem?_eq_getElem hbl] at hb
    rw [← Option.some.inj ha, ← Option.some.inj hb]
    exact le_of_lt hlt

theorem interpolate_range_bracket (q : α) (isT : Bool) (data : List (DataPoint α))
    (hs : StrictAsc data) (v : α) (hv : interpolate q data isT = some v)
    (j : Nat) (p c : DataPoint α) (hp : data[j]? = some p) (hc : data[j + 1]? = some c)
    (hb : q ≥ p.x ∧ q ≤ c.x) :
    min (sel isT p) (sel isT c) ≤ v ∧ v ≤ max (sel isT p) (sel isT c) := by
  rcases eq_or_lt_of_le hb.1 with heq | hlt
  · have hval : interpolate p.x data isT = some (sel isT p) := by
      cases data with
      | nil => simp at hp
      | cons d rest => exact interpolateFrom_at_sample isT p rest d hs (List.getElem?_mem hp)
    rw [← heq, hval] at hv
    rw [← Option.some.inj hv]
    exact ⟨min_le_left _ _, le_max_left _ _⟩
  · have hfirst : FirstBracket q data (j + 1) p c := by
      refine ⟨by omega, by simpa using hp, hc, hb, ?_⟩
      intro k p' c' hk1 hk2 _ hc' hb'
      have hle : c'.x ≤ p.x := hs.le_of_index_le hc' hp (by omega)
      exact absurd (lt_of_lt_of_le hlt hb'.2) (not_lt.mpr hle)
    obtain ⟨w, hw, _, _, hbr⟩ := interpolate_range q isT data (by
      rintro rfl
      simp at hp) hs.noZeroSpan
    rw [hw] at hv
    rw [← Option.some.inj hv]
    exact hbr (j + 1) p c hfirst

/-- C19, amended: over exact arithmetic, on a non-empty table with strictly
increasing coordinates, `T q` is a number that lies between the `T` values of two
samples of the table, hence between the minimum and the maximum `T` value of the
table, and, whenever an adjacent pair `(p, c)` brackets `q`, between `p.T` and `c.T`;
likewise `U q` for the `U` values. -/
theorem interpolate_within_range (q : α) (data : List (DataPoint α)) (hne : data ≠ [])
    (hs : StrictAsc data) :
    (∃ v, T q data = some v ∧
        (∃ lo ∈ data, lo.T ≤ v) ∧ (∃ hi ∈ data, v ≤ hi.T) ∧
        ∀ (j : Nat) (p c : DataPoint α), data[j]? = some p → data[j + 1]? = some c →
          q ≥ p.x ∧ q ≤ c.x → min p.T c.T ≤ v ∧ v ≤ max p.T c.T) ∧
      (∃ v, U q data = some v ∧
        (∃ lo ∈ data, lo.U ≤ v) ∧ (∃ hi ∈ data, v ≤ hi.U) ∧
        ∀ (j : Nat) (p c : DataPoint α), data[j]? = some p → data[j + 1]? = some c →
          q ≥ p.x ∧ q ≤ c.x → min p.U c.U ≤ v ∧ v ≤ max p.U c.U) := by
  obtain ⟨v, hv, hlo, hhi, _⟩ := interpolate_range q true data hne hs.noZeroSpan
  obtain ⟨w, hw, hlo', hhi', _⟩ := interpolate_range q false data hne hs.noZeroSpan
  exact ⟨⟨v, hv, hlo, hhi, fun j p c hp hc hb =>
      interpolate_range_bracket q true data hs v hv j p c hp hc hb⟩,
    ⟨w, hw, hlo', hhi', fun j p c hp hc hb =>
      interpolate_range_bracket q false data hs w hw j p c hp hc hb⟩⟩

/-- C19, amended, on the table `[(0,0,0), (10,100,50)]` at the query 5: `T 5` lies
between the `T` values of two samples of the table. -/
theorem interpolate_within_range_witness :
    ∃ v, T (5 : ℚ) (tableLinear ℚ) = some v ∧
      (∃ lo ∈ tableLinear ℚ, lo.T ≤ v) ∧ (∃ hi ∈ tableLinear ℚ, v ≤ hi.T) := by
  obtain ⟨v, hv, hlo, hhi, _⟩ :=
    (interpolate_within_range (5 : ℚ) (tableLinear ℚ) (by simp [tableLinear])
      (by simp [StrictAsc, tableLinear])).1
  exact ⟨v, hv, hlo, hhi⟩

/-! ## Double arithmetic -/

theorem rounded_interpolateFrom_id (x : α) (isT : Bool) :
    ∀ (rest : List (DataPoint α)) (prev : DataPoint α),
      Rounded.interpolateFrom id x isT prev rest = interpolateFrom x isT prev rest := by
  intro rest
  induction rest with
  | nil => exact fun _ => rfl
  | cons cur rest ih =>
    intro prev
    simp only [Rounded.interpolateFrom, LR1.interpolateFrom, ih, id]

theorem rounded_T_id (x : α) (data : List (DataPoint α)) : Rounded.T id x data = T x data := by
  cases data with
  | nil => rfl
  | cons d rest => exact rounded_interpolateFrom_id x true rest d

theorem rounded_U_id (x : α) (data : List (DataPoint α)) : Rounded.U id x data = U x data := by
  cases data with
  | nil => rfl
  | cons d rest => exact rounded_interpolateFrom_id x false rest d

theorem rounded_Srz_id (x y z : α) (data : List (DataPoint α)) :
    Rounded.Srz id x y z data = Srz x y z data := by
  simp only [Rounded.Srz, LR1.Srz, rounded_T_id, rounded_U_id, id]

theorem roundHalfEven_eq (q : ℚ) (f m : ℤ) (h1 : (f : ℚ) ≤ q) (h2 : q < f + 1)
    (hm : (if q - f < 1 / 2 then f
      else if 1 / 2 < q - f then f + 1
      else if f % 2 = 0 then f else f + 1) = m) : roundHalfEven q = m := by
  have hf : ⌊q⌋ = f := Int.floor_eq_iff.mpr ⟨h1, h2⟩
  simp only [roundHalfEven, hf]
  exact hm

theorem round64_eq (q d : ℚ) (f m e : ℤ) (hlo : (2 : ℚ) ^ (e + 52) ≤ q)
    (hhi : q < (2 : ℚ) ^ (e + 52 + 1)) (h1 : (f : ℚ) ≤ q / 2 ^ e) (h2 : q / 2 ^ e < f + 1)
    (hm : (if q / 2 ^ e - f < 1 / 2 then f
      else if 1 / 2 < q / 2 ^ e - f then f + 1
      else if f % 2 = 0 then f else f + 1) = m)
    (hd : (m : ℚ) * 2 ^ e = d) : round64 q = d := by
  have hpos : 0 < q := lt_of_lt_of_le (by positivity) hlo
  have hq : q ≠ 0 := ne_of_gt hpos
  have habs : |q| = q := abs_of_pos hpos
  have hlog : Int.log 2 |q| = e + 52 := by
    rw [habs]
    have h3 : e + 52 ≤ Int.log 2 q :=
      (Int.zpow_le_iff_le_log (by norm_num) hpos).mp (by exact_mod_cast hlo)
    have h4 : Int.log 2 q < e + 52 + 1 :=
      (Int.lt_zpow_iff_log_lt (by norm_num) hpos).mp (by exact_mod_cast hhi)
    omega
  simp only [round64, if_neg hq, hlog]
  rw [show e + 52 - 52 = e by ring, roundHalfEven_eq _ f m h1 h2 hm, hd]

theorem round64_tenth : round64 (1 / 10) = 3602879701896397 / 36028797018963968 :=
  round64_eq _ _ 7205759403792793 7205759403792794 (-56) (by norm_num) (by norm_num)
    (by norm_num) (by norm_num) (by norm_num) (by norm_num)

theorem round64_fifth : round64 (1 / 5) = 3602879701896397 / 18014398509481984 :=
  round64_eq _ _ 7205759403792793 7205759403792794 (-55) (by norm_num) (by norm_num)
    (by norm_num) (by norm_num) (by norm_num) (by norm_num)

/-- C16, as stated, fails in double arithmetic.  On the table `[(0, 0.1, 0.2)]` with
`x = 0 ≤ y = 1`, the source computes `Srz 0 1 1 = (T 1 + U 1) - U 1`: the sum
`0.1 + 0.2` is rounded to `0.30000000000000004` and the result is
`0.10000000000000003`, which is not `T 1 = 0.1`. -/
theorem Srz_tie_rounding_counterexample :
    (0 : ℚ) ≤ 1 ∧
      Rounded.T round64 1 tableTenths = some (3602879701896397 / 36028797018963968) ∧
      Rounded.U round64 1 tableTenths = some (3602879701896397 / 18014398509481984) ∧
      Rounded.Srz round64 0 1 1 tableTenths = some (1801439850948199 / 18014398509481984) ∧
      Rounded.Srz round64 0 1 1 tableTenths ≠ Rounded.T round64 1 tableTenths := by
  have hsum : round64 (3602879701896397 / 36028797018963968 +
      3602879701896397 / 18014398509481984) = 1351079888211149 / 4503599627370496 :=
    round64_eq _ _ 5404319552844595 5404319552844596 (-54) (by norm_num) (by norm_num)
      (by norm_num) (by norm_num) (by norm_num) (by norm_num)
  have hdiff : round64 (1351079888211149 / 4503599627370496 -
      3602879701896397 / 18014398509481984) = 1801439850948199 / 18014398509481984 :=
    round64_eq _ _ 7205759403792796 7205759403792796 (-56) (by norm_num) (by norm_num)
      (by norm_num) (by norm_num) (by norm_num) (by norm_num)
  have hT : Rounded.T round64 1 tableTenths =
      some (3602879701896397 / 36028797018963968) := by
    rw [← round64_tenth]
    rfl
  have hU : Rounded.U round64 1 tableTenths =
      some (3602879701896397 / 18014398509481984) := by
    rw [← round64_fifth]
    rfl
  have hS : Rounded.Srz round64 0 1 1 tableTenths =
      some (1801439850948199 / 18014398509481984) := by
    rw [Rounded.Srz, if_neg (by norm_num), hT, hU]
    show some (round64 (round64 (3602879701896397 / 36028797018963968 +
      3602879701896397 / 18014398509481984) - 3602879701896397 / 18014398509481984)) = _
    rw [hsum, hdiff]
  refine ⟨by norm_num, hT, hU, hS, ?_⟩
  rw [hS, hT]
  norm_num

/-- C19, as stated, fails in double arithmetic.  The table `[(0, 0.2, 0), (0.1, 1, 0.1)]`
has strictly increasing coordinates and its `T` values are at most 1; at the query
`0.1` the source computes `0.2 + (1 - 0.2) * (0.1 - 0) / (0.1 - 0)` as
`1.0000000000000002`, above the maximum `T` value of the table and above both
values of the bracketing pair. -/
theorem interpolate_rounding_counterexample :
    tableFifth ≠ [] ∧ StrictAsc tableFifth ∧ (∀ p ∈ tableFifth, p.T ≤ 1) ∧
      Rounded.T round64 (round64 (1 / 10)) tableFifth =
        some (4503599627370497 / 4503599627370496) ∧
      (1 : ℚ) < 4503599627370497 / 4503599627370496 ∧
      ¬ ∃ hi ∈ tableFifth, (4503599627370497 / 4503599627370496 : ℚ) ≤ hi.T := by
  have h1 : round64 (1 - 3602879701896397 / 18014398509481984) =
      3602879701896397 / 4503599627370496 :=
    round64_eq _ _ 7205759403792793 7205759403792794 (-53) (by norm_num) (by norm_num)
      (by norm_num) (by norm_num) (by norm_num) (by norm_num)
  have h2 : round64 (3602879701896397 / 36028797018963968 - 0) =
      3602879701896397 / 36028797018963968 :=
    round64_eq _ _ 7205759403792794 7205759403792794 (-56) (by norm_num) (by norm_num)
      (by norm_num) (by norm_num) (by norm_num) (by norm_num)
  have h3 : round64 (3602879701896397 / 4503599627370496 *
      (3602879701896397 / 36028797018963968)) = 1441151880758559 / 18014398509481984 :=
    round64_eq _ _ 5764607523034235 5764607523034236 (-56) (by norm_num) (by norm_num)
      (by norm_num) (by norm_num) (by norm_num) (by norm_num)
  have h4 : round64 (1441151880758559 / 18014398509481984 /
      (3602879701896397 / 36028797018963968)) = 7205759403792795 / 9007199254740992 :=
    round64_eq _ _ 7205759403792794 7205759403792795 (-53) (by norm_num) (by norm_num)
      (by norm_num) (by norm_num) (by norm_num) (by norm_num)
  have h5 : round64 (3602879701896397 / 18014398509481984 +
      7205759403792795 / 9007199254740992) = 4503599627370497 / 4503599627370496 :=
    round64_eq _ _ 4503599627370496 4503599627370497 (-52) (by norm_num) (by norm_num)
      (by norm_num) (by norm_num) (by norm_num) (by norm_num)
  have hb : (3602879701896397 / 36028797018963968 : ℚ) ≥ 0 ∧
      (3602879701896397 / 36028797018963968 : ℚ) ≤ 3602879701896397 / 36028797018963968 :=
    ⟨by norm_num, le_refl _⟩
  have hne : (3602879701896397 / 36028797018963968 : ℚ) ≠ 0 := by norm_num
  have hT : Rounded.T round64 (round64 (1 / 10)) tableFifth =
      some (4503599627370497 / 4503599627370496) := by
    simp only [Rounded.T, Rounded.interpolate, tableFifth, Rounded.interpolateFrom, sel,
      round64_tenth, round64_fifth, if_pos hb, if_true, h1, h2, h3, fdiv, if_neg hne,
      Option.some_bind, h4, h5]
  refine ⟨by simp [tableFifth], ?_, ?_, hT, by norm_num, ?_⟩
  · simp only [StrictAsc, tableFifth, round64_tenth]
    norm_num
  · intro p hp
    simp only [tableFifth, round64_fifth, round64_tenth, List.mem_cons, List.mem_singleton,
      List.not_mem_nil, or_false] at hp
    rcases hp with rfl | rfl <;> norm_num
  · rintro ⟨hi, hm, hle⟩
    simp only [tableFifth, round64_fifth, round64_tenth, List.mem_cons, List.mem_singleton,
      List.not_mem_nil, or_false] at hm
    rcases hm with rfl | rfl <;> norm_num at hle

end Core

end LR1
